import Mathlib

/-!
Verification development for the GDE2Acsv ETL engine
(`src/etl/transformer.py`, class `DataTransformer`).

The pandas data model is embedded shallowly:
* a cell is `Option String` (`none` models a pandas missing value `NaN`;
  source extracts are treated as string-valued, which is how every cell is
  consumed by the transformer — via `str(...)`, `.astype(str)`, `.strip()`);
* a row is an association list from (already case/whitespace-normalized)
  column names to cells; a table is a list of rows;
* Python dicts are association lists with insertion-order assignment.

Python / pandas behaviours that matter and are modelled explicitly:
* `str(x)` of a missing value is the string `"nan"` (`pyStr`);
* a missing value is *truthy* in Python (`truthyCell`), the empty string is
  falsy;
* `drop_duplicates` keeps the first row of every key group (`dedupBy`);
* `groupby` iterates groups in sorted key order, preserving row order
  inside each group;
* `Series.unique` keeps the first occurrence of every value (`dedupBy id`).

Where the Python source would raise an uncaught exception (for example a
`KeyError` on a hard column access), the embedding is total; theorems about
those operations are read on the non-crashing input domain, and inputs used
in witnesses and counterexamples always provide the accessed columns.
-/

namespace GDE2Acsv

/-- A pandas cell: `none` is a missing value (`NaN`). -/
abbrev Cell := Option String

/-- A row: association list from column name to cell. -/
abbrev Row := List (String × Cell)

/-- A table: list of rows.  `[]` models an empty `DataFrame`. -/
abbrev Table := List Row

/-- Column access: `none` when the column is absent from the row. -/
def getCell (r : Row) (c : String) : Option Cell :=
  (r.find? (fun p => p.1 == c)).map Prod.snd

/-- `row.get(c, d)` — Python `dict`/`Series.get` with a default. -/
def cellGetD (r : Row) (c : String) (d : Cell) : Cell :=
  (getCell r c).getD d

/-- `str(x)` on a cell: a missing value prints as `"nan"`. -/
def pyStr : Cell → String
  | none => "nan"
  | some s => s

/-- `pd.notna` on a cell. -/
def notnaCell : Cell → Bool
  | none => false
  | some _ => true

/-- Python truthiness of a cell: `NaN` (a float) is truthy, `""` is falsy. -/
def truthyCell : Cell → Bool
  | none => true
  | some s => decide (s ≠ "")

/-- Python `str.strip` whitespace test (the ASCII part, which is what the
source extracts contain). -/
def isPySpace (c : Char) : Bool :=
  c == ' ' || c == '\t' || c == '\n' || c == '\r'

/-- Strip leading and trailing whitespace from a character list. -/
def stripChars (l : List Char) : List Char :=
  ((l.dropWhile isPySpace).reverse.dropWhile isPySpace).reverse

/-- Python `str.strip()`. -/
def pyStrip (s : String) : String :=
  ⟨stripChars s.data⟩

/-- Python `str.upper()` (per character; kernel-reducible form). -/
def pyUpper (s : String) : String :=
  ⟨s.data.map Char.toUpper⟩

/-- Python `str.lower()` (per character; kernel-reducible form). -/
def pyLower (s : String) : String :=
  ⟨s.data.map Char.toLower⟩

/-- Lexicographic comparison of character lists by code point (Python string
comparison). -/
def charListLe : List Char → List Char → Bool
  | [], _ => true
  | _ :: _, [] => false
  | a :: as, b :: bs =>
    if a < b then true else if b < a then false else charListLe as bs

/-- Python `a <= b` on strings. -/
def strLeB (a b : String) : Bool :=
  charListLe a.data b.data

/-- Parse a digit string as a natural number (model of Python `int(s)` on
the non-negative inputs the grade codes use; any other shape raises there,
modelled as `none`). -/
def parseNatChars (l : List Char) : Option Nat :=
  if l ≠ [] ∧ l.all Char.isDigit then
    some (l.foldl (fun n c => n * 10 + (c.toNat - 48)) 0)
  else none

/-- Python `int(s)` as an option. -/
def pyInt? (s : String) : Option Int :=
  (parseNatChars s.data).map Int.ofNat

/-- Set (or append) a column value in a row, keeping column order. -/
def setCell (r : Row) (c : String) (v : Cell) : Row :=
  if r.any (fun p => p.1 == c) then
    r.map (fun p => if p.1 == c then (c, v) else p)
  else
    r ++ [(c, v)]

/-- Whether a table has a column (pandas `c in df.columns`); an empty frame
has no columns. -/
def tableHasCol (t : Table) (c : String) : Bool :=
  match t with
  | [] => false
  | r :: _ => r.any (fun p => p.1 == c)

/-- Apply a function to one column of a row (only where present). -/
def applyColRow (r : Row) (c : String) (f : Cell → Cell) : Row :=
  r.map (fun p => if p.1 == c then (p.1, f p.2) else p)

/-- `df[c] = df[c].astype(str).str.strip()` — performed only when the column
is present (the transformer always guards these with a membership test). -/
def stripStrCol (t : Table) (c : String) : Table :=
  if tableHasCol t c then
    t.map (fun r => applyColRow r c (fun v => some (pyStrip (pyStr v))))
  else t

/-- `df.columns = [col.strip().lower() for col in df.columns]`. -/
def lowerCols (t : Table) : Table :=
  t.map (List.map (fun p => (pyLower (pyStrip p.1), p.2)))

/-- Worker for `dedupBy`: drop elements whose key was already seen. -/
def dedupByAux {α : Type _} {β : Type _} [DecidableEq β] (key : α → β)
    (seen : List β) : List α → List α
  | [] => []
  | x :: xs =>
    if key x ∈ seen then dedupByAux key seen xs
    else x :: dedupByAux key (key x :: seen) xs

/-- `drop_duplicates` keyed by `key`: keep the first element of every key
class. -/
def dedupBy {α : Type _} {β : Type _} [DecidableEq β] (key : α → β)
    (l : List α) : List α :=
  dedupByAux key [] l

/-- Dict lookup. -/
def alookup {α : Type _} (m : List (String × α)) (k : String) : Option α :=
  (m.find? (fun p => p.1 == k)).map Prod.snd

/-- Dict assignment `m[k] = v` (replace in place, else append). -/
def aset {α : Type _} (m : List (String × α)) (k : String) (v : α) :
    List (String × α) :=
  if m.any (fun p => p.1 == k) then
    m.map (fun p => if p.1 == k then (k, v) else p)
  else
    m ++ [(k, v)]

/-- Keys of a dict. -/
def akeys {α : Type _} (m : List (String × α)) : List String :=
  m.map Prod.fst

/-- Insertion sort on strings (model of the sorted iteration order of
`DataFrame.groupby`). -/
def insertStr (s : String) : List String → List String
  | [] => [s]
  | x :: xs => if strLeB s x then s :: x :: xs else x :: insertStr s xs

/-- Sort a list of strings ascending. -/
def sortStrs : List String → List String
  | [] => []
  | x :: xs => insertStr x (sortStrs xs)

/-! ### `DataTransformer._truncate_name`

Python strings are modelled as `List Char` here because the function works
with code-point indices (`len`, `rfind`, slicing). -/

/-- `name.rfind(' ', 0, k)`: index of the last space among the first `k`
characters, `none` when there is no space there (Python returns `-1`). -/
def rfindSpace : List Char → Option Nat
  | [] => none
  | c :: cs =>
    match rfindSpace cs with
    | some i => some (i + 1)
    | none => if c == ' ' then some 0 else none

/-- `DataTransformer._truncate_name` with the default `max_len = 100`. -/
def truncateName (name : List Char) (maxLen : Nat := 100) : List Char :=
  if name.length ≤ maxLen then name
  else
    let truncLen := maxLen - 3
    match rfindSpace (name.take truncLen) with
    | some lastSpace => name.take lastSpace ++ ['.', '.', '.']
    | none => name.take truncLen ++ ['.', '.', '.']

/-! ### `DataTransformer.grade_to_ceds` -/

/-- `DataTransformer.CEDS_MAPPING`. -/
def CEDS_MAPPING : List (String × String) :=
  [("INFANT/TODDLER", "IT"), ("PRESCHOOL", "PR"), ("PRE-K", "PK"),
   ("PREKINDERGARTEN", "PK"), ("TK", "TK"), ("TRANSITIONAL KINDERGARTEN", "TK"),
   ("KINDERGARTEN", "KG"), ("K", "KG"), ("01", "01"), ("1", "01"),
   ("02", "02"), ("2", "02"), ("03", "03"), ("3", "03"), ("04", "04"),
   ("4", "04"), ("05", "05"), ("5", "05"), ("06", "06"), ("6", "06"),
   ("07", "07"), ("7", "07"), ("08", "08"), ("8", "08"), ("09", "09"),
   ("9", "09"), ("10", "10"), ("11", "11"), ("12", "12"), ("13", "13"),
   ("POSTSECONDARY", "PS"), ("UGRADED", "UG"), ("UNGRADED", "UG"),
   ("UG", "UG"), ("OTHER", "Other"), ("EL", "KG"), ("KF", "KG")]

/-- The normalized form of a raw grade value:
`str(grade_value).strip().upper() if pd.notna(grade_value) else ""`. -/
def gradeKey (gradeValue : Cell) : String :=
  match gradeValue with
  | none => ""
  | some s => pyUpper (pyStrip s)

/-- `DataTransformer.grade_to_ceds`. -/
def gradeToCeds (gradeValue : Cell) : String :=
  (alookup CEDS_MAPPING (gradeKey gradeValue)).getD "UG"

/-- `DataTransformer.map_role`. -/
def mapRole (teachingFlag : Cell) : String :=
  if pyLower (pyStrip (pyStr teachingFlag)) == "y" then "teacher"
  else "administrator"

/-! ### Configuration model

A field-map directive is either a bare string (a source column name) or a
Python dict.  Dict entries are string- or boolean-valued, mirroring the keys
the transformer actually reads (`value`, `column`, `transform`,
`use_academic_year`, `append_year_to_id`, `format`, `student_id_col`,
`staff_id_col`, `primary_teacher_flag`, `teacher_last_name`, `course_title`,
`section_letter`).  `source_files` configurations are modelled in the
role→filename dict shape, on which `normalize_source_config` is the
identity (the list shapes are converted to this shape before use). -/

inductive CfgVal where
  | s (v : String)
  | b (v : Bool)
deriving DecidableEq

/-- A directive dict. -/
abbrev DirDict := List (String × CfgVal)

/-- A field-map directive. -/
inductive Directive where
  | dict (d : DirDict)
  | str (v : String)
deriving DecidableEq

/-- `d.get(k, default)` for a string-valued entry, `none` when absent or not
a string. -/
def dGetStr (d : DirDict) (k : String) : Option String :=
  match alookup d k with
  | some (.s v) => some v
  | _ => none

/-- Truthiness of `d.get(k)` (for `use_academic_year` / `append_year_to_id`;
absent keys are falsy). -/
def dGetBool (d : DirDict) (k : String) : Bool :=
  match alookup d k with
  | some (.b v) => v
  | some (.s v) => decide (v ≠ "")
  | none => false

/-- `"value" in src_info`. -/
def dHas (d : DirDict) (k : String) : Bool :=
  (alookup d k).isSome

/-- An entity mapping: `{source_files: role→file, field_map: {field: directive}}`. -/
structure EntityMapping where
  sourceFiles : List (String × String)
  fieldMap : List (String × Directive)
deriving DecidableEq

/-- The global configuration (`global_config` plus the optional `mappings`
sub-document that the transformer probes via `global_config.get("mappings",
{})`; the CLI passes a `global_config` without `mappings`, in which case all
the probed column names fall back to their defaults). -/
structure GlobalConfig where
  homeroomGrades : List String
  mappings : List (String × EntityMapping)
deriving DecidableEq

/-- `global_config.get("mappings", {}).get("Enrollments", {}).get("field_map",
{}).get("User ID", {})` as a directive dict.  A string-valued `User ID`
directive makes the source raise (`AttributeError` on `.get`); the total
model falls back to the empty dict there. -/
def enrollUserIdDirOfGC (gc : GlobalConfig) : DirDict :=
  match alookup gc.mappings "Enrollments" with
  | some m =>
    match alookup m.fieldMap "User ID" with
    | some (.dict d) => d
    | _ => []
  | none => []

/-- `teacher_id_col = user_id_map.get("staff_id_col", "teacher id").lower()`
as computed in the Classes pass and in blended detection. -/
def teacherIdColOfGC (gc : GlobalConfig) : String :=
  pyLower ((dGetStr (enrollUserIdDirOfGC gc) "staff_id_col").getD "teacher id")

/-- `global_config.get("mappings", {}).get("Students", {}).get("field_map", {})`. -/
def studentsFieldMapOfGC (gc : GlobalConfig) : List (String × Directive) :=
  match alookup gc.mappings "Students" with
  | some m => m.fieldMap
  | none => []

/-- The student grade column name: `students_field_map.get("Grade",
{}).get("column", "grade").lower()` (a non-dict `Grade` directive falls back
to `"grade"`, the source's guarded form; the unguarded Enrollments variant
raises there). -/
def gradeColOfGC (gc : GlobalConfig) : String :=
  match alookup (studentsFieldMapOfGC gc) "Grade" with
  | some (.dict d) => pyLower ((dGetStr d "column").getD "grade")
  | _ => "grade"

/-- The homeroom column name: `students_field_map.get("Homeroom",
"homeroom").lower()` (a dict directive here would raise in the source; the
total model falls back to the default). -/
def homeroomColOfGC (gc : GlobalConfig) : String :=
  match alookup (studentsFieldMapOfGC gc) "Homeroom" with
  | some (.str v) => pyLower v
  | _ => "homeroom"

/-- The column configured by a directive of the shape
`cfg.get("column", dflt).lower() if isinstance(cfg, dict) else dflt`,
where the field's absence defaults to the empty dict. -/
def colOfFieldMap (fm : List (String × Directive)) (field : String)
    (dflt : String) : String :=
  match alookup fm field with
  | some (.str _) => dflt
  | some (.dict d) => pyLower ((dGetStr d "column").getD dflt)
  | none => pyLower ((dGetStr [] "column").getD dflt)

/-! ### Transformer state -/

/-- Metadata of one blended class
(`blended_class_metadata[blended_id]`). -/
structure BlendedMeta where
  name : String
  grade : String
  schoolId : String
  originalMtIds : List String
deriving DecidableEq

/-- The mutable state of a `DataTransformer` instance. -/
structure TState where
  schoolYear : Nat
  academicStart : String
  academicEnd : String
  homeroomClassesDf : Table
  blendedClassMap : List (String × String)
  blendedClassMetadata : List (String × BlendedMeta)
  blendedTeacherMap : List (String × List String)
deriving DecidableEq

/-- `DataTransformer.__init__`. -/
def initState : TState :=
  ⟨0, "", "", [], [], [], []⟩

/-- `DataTransformer.set_school_year`. -/
def setSchoolYear (st : TState) (year : Nat) : TState :=
  { st with
    schoolYear := year
    academicStart := toString year ++ "-08-25"
    academicEnd := toString (year + 1) ++ "-07-25" }

/-- `DataTransformer.get_source_file` (on a dict-shaped source config:
an empty or unresolved filename yields an empty frame). -/
def getSourceFile (rawData : List (String × Table))
    (sources : List (String × String)) (role : String) : Table :=
  match alookup sources role with
  | some filename =>
    if filename ≠ "" then (alookup rawData filename).getD [] else []
  | none => []

/-- `DataTransformer.generate_class_id` at its call sites
(`append_year=True`): a truthy id gets `_{school_year}` appended (a missing
value is truthy in Python and prints as `"nan"`), a falsy one is returned
unchanged. -/
def generateClassId (st : TState) (r : Row) (mtIdCol : String) : Cell :=
  let mtId := cellGetD r mtIdCol (some "")
  if truthyCell mtId then some (pyStr mtId ++ "_" ++ toString st.schoolYear)
  else mtId

/-- Replace the last element of a list. -/
def modifyLast (f : String → String) : List String → List String
  | [] => []
  | [x] => [f x]
  | x :: y :: xs => x :: modifyLast f (y :: xs)

/-- `truncateName` on `String`. -/
def truncateNameStr (s : String) : String :=
  ⟨truncateName s.data⟩

/-- `DataTransformer.generate_class_name`. -/
def generateClassName (st : TState) (r : Row) (flagCol lastCol titleCol secCol : String) :
    String :=
  let courseTitle :=
    pyStrip (pyStr (cellGetD r titleCol (cellGetD r "title" (some "Unknown Course"))))
  let teacherLastRaw :=
    if flagCol ≠ "" ∧ (getCell r flagCol).isSome then
      if pyLower (pyStrip (pyStr (cellGetD r flagCol (some "")))) == "y" then
        pyStrip (pyStr (cellGetD r lastCol (some "")))
      else ""
    else pyStrip (pyStr (cellGetD r lastCol (some "")))
  let teacherLast := if pyLower teacherLastRaw == "nan" then "" else teacherLastRaw
  let sectionStr := pyStrip (pyStr (cellGetD r secCol (some "")))
  let parts0 := (if teacherLast ≠ "" then [teacherLast] else []) ++ [courseTitle]
  let parts1 :=
    if sectionStr ≠ "" then
      if parts0 ≠ [] then modifyLast (fun x => x ++ " (" ++ sectionStr ++ ")") parts0
      else ["(" ++ sectionStr ++ ")"]
    else parts0
  let parts := parts1 ++ [toString st.schoolYear]
  truncateNameStr (pyStrip (" ".intercalate parts))

/-! ### Blended-class detection (`DataTransformer._detect_blended_classes`) -/

/-- Dict lookup keyed by a cell (a missing value never matches a string key). -/
def lookupCell {α : Type _} (m : List (String × α)) (c : Cell) : Option α :=
  match c with
  | some s => alookup m s
  | none => none

/-- The `master timetable id` cell of a row. -/
def mtIdCell (r : Row) : Cell :=
  (getCell r "master timetable id").getD none

/-- `mtid_to_grade_map`: select `['master timetable id', 'grade']`, drop rows
with a missing value, drop duplicate pairs, then `Series.to_dict` (the last
pair for a key wins). -/
def buildGradeMap (schedule : Table) : List (String × String) :=
  let pairs := schedule.filterMap (fun r =>
    match mtIdCell r, (getCell r "grade").getD none with
    | some m, some g => some (m, g)
    | _, _ => none)
  (dedupBy id pairs).foldl (fun acc p => aset acc p.1 p.2) []

/-- `course_code_to_title_map`: select `['course code', 'title']`, drop rows
with a missing value, drop duplicate codes keeping the first, then
`Series.to_dict`. -/
def buildTitleMap (courseInfo : Table) : List (String × String) :=
  let pairs := courseInfo.filterMap (fun r =>
    match (getCell r "course code").getD none, (getCell r "title").getD none with
    | some c, some t => some (c, t)
    | _, _ => none)
  (dedupBy Prod.fst pairs).foldl (fun acc p => aset acc p.1 p.2) []

/-- The CEDS codes collected over a session group: for each member
`master timetable id`, look the raw grade up in the grade map and normalize
it; missing ids and empty (falsy) grades are skipped. -/
def collectGroupCeds (group : List Row) (gradeMap : List (String × String)) :
    List String :=
  group.filterMap (fun r =>
    match lookupCell gradeMap (mtIdCell r) with
    | some g => if g ≠ "" then some (gradeToCeds (some g)) else none
    | none => none)

/-- `DataTransformer._validate_blended_class`. -/
def validateBlendedClass (group : List Row) (gradeMap : List (String × String)) :
    Bool :=
  if group.length ≤ 1 then false
  else 2 ≤ (dedupBy id (collectGroupCeds group gradeMap)).length

/-- Insertion sort of strings by their integer value (`sorted(grades, key=int)`;
only applied when every element parses). -/
def insertByInt (s : String) : List String → List String
  | [] => [s]
  | x :: xs =>
    if (pyInt? s).getD 0 ≤ (pyInt? x).getD 0 then s :: x :: xs else x :: insertByInt s xs

/-- Sort strings by integer value. -/
def sortByInt : List String → List String
  | [] => []
  | x :: xs => insertByInt x (sortByInt xs)

/-- `DataTransformer._get_blended_grade_range`. -/
def getBlendedGradeRange (group : List Row) (gradeMap : List (String × String)) :
    String :=
  let grades := dedupBy id (collectGroupCeds group gradeMap)
  if grades = [] then ""
  else
    let sorted :=
      if grades.all (fun g => (pyInt? g).isSome) then sortByInt grades
      else sortStrs grades
    "/".intercalate sorted

/-- `DataTransformer._create_blended_class_name`. -/
def createBlendedClassName (st : TState) (group : List Row)
    (fieldMap : List (String × Directive)) (gradeStr : String)
    (titleMap : List (String × String)) : String :=
  let nameDir : Option DirDict :=
    match alookup fieldMap "Name" with
    | some (.dict d) => some d
    | some (.str _) => none
    | none => some []
  let teacherParts : List String :=
    match nameDir with
    | some d =>
      let tCol := pyLower ((dGetStr d "teacher_last_name").getD "teacher name")
      if tableHasCol group tCol then
        match group with
        | [] => []
        | r :: _ =>
          match (getCell r tCol).getD none with
          | some s => if pyStrip s ≠ "" then [pyStrip s] else []
          | none => []
      else []
    | none => []
  let titles := sortStrs (dedupBy id (group.map (fun r =>
    match (getCell r "course code").getD none with
    | some code => (alookup titleMap code).getD "Unknown Course"
    | none => "Unknown Course")))
  let p1 := teacherParts ++ (if titles ≠ [] then [" / ".intercalate titles] else [])
  let p2 := p1 ++ (if gradeStr ≠ "" then ["(" ++ gradeStr ++ ")"] else [])
  let parts := p2 ++ [toString st.schoolYear]
  let fullName := pyStrip (" ".intercalate parts)
  let fullName' :=
    if fullName = "" ∨ parts.length ≤ 1 then
      pyStrip ("Blended Class " ++ gradeStr ++ " " ++ toString st.schoolYear)
    else fullName
  truncateNameStr fullName'

/-- `fillna('').astype(str)` on the listed columns. -/
def fillnaStrCols (t : Table) (cols : List String) : Table :=
  t.map (fun r => cols.foldl
    (fun r c => applyColRow r c (fun v => some (match v with | none => "" | some s => s)))
    r)

/-- Value of a (filled) session-component column. -/
def keyPart (r : Row) (c : String) : String :=
  match (getCell r c).getD none with
  | some s => s
  | none => ""

/-- `groupby` on a computed key: groups in sorted key order, row order
preserved inside each group. -/
def groupByKey (t : Table) (keyOf : Row → String) : List (String × List Row) :=
  (sortStrs (dedupBy id (t.map keyOf))).map
    (fun k => (k, t.filter (fun r => keyOf r == k)))

/-- The body of the detection loop for one session group: groups of size ≤ 1
are skipped, a validated blended group writes all three blended maps.
On the call path the `master timetable id` cells have been cast to stripped
strings, so taking `pyStr` of them as dict keys is exact. -/
def processSessionGroup (st : TState) (workingRecords : List Row)
    (teacherIdCol : String) (fieldMap : List (String × Directive))
    (titleMap gradeMap : List (String × String))
    (sessionKey : String) (group : List Row) : TState :=
  if group.length ≤ 1 then st
  else if validateBlendedClass group gradeMap then
    let blendedId := "BLENDED_" ++ sessionKey ++ "_" ++ toString st.schoolYear
    let allMtIdCells := group.map mtIdCell
    let st1 := { st with
      blendedClassMap :=
        allMtIdCells.foldl (fun m c => aset m (pyStr c) blendedId) st.blendedClassMap }
    let allTeachers := dedupBy id
      ((workingRecords.filter (fun r => allMtIdCells.contains (mtIdCell r))).map
        (fun r => pyStr ((getCell r teacherIdCol).getD none)))
    let st2 := { st1 with
      blendedTeacherMap := aset st1.blendedTeacherMap blendedId allTeachers }
    let gradeStr := getBlendedGradeRange group gradeMap
    let className := createBlendedClassName st2 group fieldMap gradeStr titleMap
    let schoolId :=
      if tableHasCol group "school number" then
        match group with
        | r :: _ => pyStr ((getCell r "school number").getD none)
        | [] => ""
      else ""
    { st2 with
      blendedClassMetadata := aset st2.blendedClassMetadata blendedId
        ⟨className, gradeStr, schoolId, allMtIdCells.map pyStr⟩ }
  else st

/-- `DataTransformer._detect_blended_classes`.  The caller (the Classes pass)
has already normalized the column names of `classInfo` and cast its teacher
and `master timetable id` columns to stripped strings. -/
def detectBlendedClasses (st : TState) (classInfo : Table)
    (mapping : EntityMapping) (rawData : List (String × Table))
    (gc : GlobalConfig) : TState :=
  if classInfo = [] then st
  else
    let fieldMap := mapping.fieldMap
    let teacherIdCol := teacherIdColOfGC gc
    let schedule0 := getSourceFile rawData mapping.sourceFiles "student_schedule"
    let course0 := getSourceFile rawData mapping.sourceFiles "course_info"
    if schedule0 = [] ∨ course0 = [] then st
    else
      let schedule := stripStrCol (lowerCols schedule0) "master timetable id"
      let course := lowerCols course0
      let gradeMap :=
        if tableHasCol schedule "master timetable id" ∧ tableHasCol schedule "grade" then
          buildGradeMap schedule
        else []
      let titleMap :=
        if tableHasCol course "course code" ∧ tableHasCol course "title" then
          buildTitleMap course
        else []
      if ¬ (tableHasCol classInfo teacherIdCol ∧ tableHasCol classInfo "master timetable id") then
        st
      else
        let sessionComponents := ["school number", teacherIdCol, "term", "semester", "day", "period"]
        let available := sessionComponents.filter (fun c => tableHasCol classInfo c)
        let workingRecords := fillnaStrCols classInfo available
        let keyOf := fun r => "_".intercalate (available.map (fun c => keyPart r c))
        (groupByKey workingRecords keyOf).foldl
          (fun st kg =>
            processSessionGroup st workingRecords teacherIdCol fieldMap titleMap gradeMap kg.1 kg.2)
          st

/-! ### DataFrame operations used by the entity passes -/

/-- The column names of a table (pandas columns are table-level; frames are
built with uniform rows). -/
def colsOf (t : Table) : List String :=
  match t with
  | [] => []
  | r :: _ => r.map Prod.fst

/-- Key comparison in `merge`: missing values never match. -/
def mergeKeyEq (a b : Cell) : Bool :=
  match a, b with
  | some x, some y => x == y
  | _, _ => false

/-- `left.merge(right, on=keys, how="left")` with pandas suffixing:
non-key columns present on both sides are renamed `c_x` (left) and `c_y`
(right); unmatched left rows get missing values in the right-only columns. -/
def leftMerge (L R : Table) (keys : List String) : Table :=
  let overlap := (colsOf L).filter
    (fun c => !keys.contains c && (colsOf R).contains c)
  let renameL : Row → Row := fun r =>
    r.map (fun p => if overlap.contains p.1 then (p.1 ++ "_x", p.2) else p)
  let renameR : Row → Row := fun r =>
    (r.filter (fun p => !keys.contains p.1)).map
      (fun p => if overlap.contains p.1 then (p.1 ++ "_y", p.2) else p)
  let rightOnlyCols := ((colsOf R).filter (fun c => !keys.contains c)).map
    (fun c => if overlap.contains c then c ++ "_y" else c)
  L.flatMap (fun l =>
    let ms := R.filter (fun r =>
      keys.all (fun k => mergeKeyEq ((getCell l k).getD none) ((getCell r k).getD none)))
    if ms.isEmpty then
      [renameL l ++ rightOnlyCols.map (fun c => (c, (none : Cell)))]
    else ms.map (fun r => renameL l ++ renameR r))

/-- Select columns of a row in the given order (`df[[c1, c2, ...]]`; the
source raises on a missing column, the total model drops it). -/
def selectCols (r : Row) (cols : List String) : Row :=
  cols.filterMap (fun c => (getCell r c).map (fun v => (c, v)))

/-- `df.rename(columns={a: b})`. -/
def renameCol (t : Table) (a b : String) : Table :=
  t.map (List.map (fun p => if p.1 == a then (b, p.2) else p))

/-- `col.apply(grade_to_ceds)` in place, guarded by column presence. -/
def applyCedsCol (t : Table) (c : String) : Table :=
  if tableHasCol t c then
    t.map (fun r => applyColRow r c (fun v => some (gradeToCeds v)))
  else t

/-- `pd.concat(frames, ignore_index=True)`: the column set is the union in
first-appearance order and every row is aligned to it, missing columns
becoming missing values. -/
def concatTables (ts : List Table) : Table :=
  let cols := dedupBy id (ts.flatMap colsOf)
  ts.flatMap (fun t => t.map (fun r => cols.map (fun c => (c, (getCell r c).getD none))))

/-- Align a flat row list to the union of its columns (the same operation as
`concatTables` on the per-segment frames the rows came from). -/
def alignRows (rows : List Row) : List Row :=
  let cols := dedupBy id (rows.flatMap (List.map Prod.fst))
  rows.map (fun r => cols.map (fun c => (c, (getCell r c).getD none)))

/-- `Start Date` directive resolution shared by the homeroom and subject
passes: `use_academic_year` → academic start, literal `value` → the literal,
anything else → academic start. -/
def startDateOf (fieldMap : List (String × Directive)) (st : TState) : String :=
  match alookup fieldMap "Start Date" with
  | some (.dict d) =>
    if dGetBool d "use_academic_year" then st.academicStart
    else if dHas d "value" then (dGetStr d "value").getD "" else st.academicStart
  | _ => st.academicStart

/-- `End Date` directive resolution (same shape as `startDateOf`). -/
def endDateOf (fieldMap : List (String × Directive)) (st : TState) : String :=
  match alookup fieldMap "End Date" with
  | some (.dict d) =>
    if dGetBool d "use_academic_year" then st.academicEnd
    else if dHas d "value" then (dGetStr d "value").getD "" else st.academicEnd
  | _ => st.academicEnd

/-- `create_homeroom_name` (the closure inside the Classes pass). -/
def createHomeroomName (r : Row) (homeroomCol teacherNameCol : String)
    (year : Nat) : String :=
  let homeroom := (getCell r homeroomCol).getD none
  let teacher := (getCell r teacherNameCol).getD none
  let hasHomeroom := notnaCell homeroom && decide (pyStrip (pyStr homeroom) ≠ "")
  let hasTeacher := notnaCell teacher && decide (pyStrip (pyStr teacher) ≠ "")
  let parts :=
    (if hasHomeroom then [pyStr homeroom] else ["Unassigned Homeroom"])
      ++ (if hasTeacher then ["- " ++ pyStr teacher] else [])
      ++ ["(" ++ toString year ++ ")"]
  " ".intercalate parts

/-! ### The Classes pass (`transform`, `entity == "Classes"`) -/

/-- The homeroom-synthesis rows (`homeroom_classes` with its added output
columns), derived from one deduplicated demographic row. -/
def mkHomeroomClassRow (st : TState) (fieldMap : List (String × Directive))
    (gradeCol homeroomCol : String) (r : Row) : Row :=
  let classId :=
    pyStr ((getCell r "school number").getD none) ++ "_" ++
      (match (getCell r homeroomCol).getD none with
       | none => "UnassignedHomeroom"
       | some s => s) ++ "_" ++ toString st.schoolYear
  let name := createHomeroomName r homeroomCol "teacher name" st.schoolYear
  let r1 := setCell r "Class ID" (some classId)
  let r2 := setCell r1 "Name" (some name)
  let r3 := setCell r2 "Grade" ((getCell r gradeCol).getD none)
  let r4 := setCell r3 "School ID" ((getCell r "school number").getD none)
  let r5 := setCell r4 "Start Date" (some (startDateOf fieldMap st))
  setCell r5 "End Date" (some (endDateOf fieldMap st))

/-- One HomeroomIndex row
(`homeroom_classes[["school number", homeroom_col, "Class ID", teacher_id_col]]`,
the teacher column included only when present on the frame). -/
def homeroomIdxRow (teacherIdCol homeroomCol : String) (hasTeacher : Bool)
    (r : Row) : Row :=
  [("school number", (getCell r "school number").getD none),
   (homeroomCol, (getCell r homeroomCol).getD none),
   ("Class ID", (getCell r "Class ID").getD none)] ++
    (if hasTeacher then [(teacherIdCol, (getCell r teacherIdCol).getD none)] else [])

/-- The Classes-pass demographic preprocessing: lowered column names,
teacher-id column cast to stripped strings, grade column normalized. -/
def demoPrep (demo0 : Table) (gc : GlobalConfig) : Table :=
  applyCedsCol (stripStrCol (lowerCols demo0) (teacherIdColOfGC gc)) (gradeColOfGC gc)

/-- The homeroom-grade filter of the Classes pass. -/
def homeroomStudentsOf (demo0 : Table) (gc : GlobalConfig) : Table :=
  (demoPrep demo0 gc).filter (fun r =>
    match (getCell r (gradeColOfGC gc)).getD none with
    | some g => gc.homeroomGrades.contains g
    | none => false)

/-- `drop_duplicates(subset=dedup_cols)` on the homeroom students (the
teacher column joins the key only when present). -/
def uniqueHomeroomsOf (demo0 : Table) (gc : GlobalConfig) : Table :=
  let hs := homeroomStudentsOf demo0 gc
  let dedupCols := ["school number", homeroomColOfGC gc] ++
    (if tableHasCol hs (teacherIdColOfGC gc) then [teacherIdColOfGC gc] else [])
  dedupBy (fun r => dedupCols.map (fun c => (getCell r c).getD none)) hs

/-- The HomeroomIndex recorded by the homeroom sub-pass. -/
def homeroomIdxOf (st : TState) (fieldMap : List (String × Directive))
    (demo0 : Table) (gc : GlobalConfig) : Table :=
  let homeroomClasses := (uniqueHomeroomsOf demo0 gc).map
    (mkHomeroomClassRow st fieldMap (gradeColOfGC gc) (homeroomColOfGC gc))
  homeroomClasses.map (homeroomIdxRow (teacherIdColOfGC gc) (homeroomColOfGC gc)
    (tableHasCol homeroomClasses (teacherIdColOfGC gc)))

/-- The homeroom sub-pass: returns the updated state (the HomeroomIndex is
recorded) and the list of frames it appends to `final_classes`. -/
def homeroomPass (st : TState) (mapping : EntityMapping)
    (rawData : List (String × Table)) (gc : GlobalConfig) :
    TState × List Table :=
  let demo0 := getSourceFile rawData mapping.sourceFiles "student_demographic"
  if demo0 = [] then (st, [])
  else if homeroomStudentsOf demo0 gc = [] then (st, [])
  else
    let uniq := uniqueHomeroomsOf demo0 gc
    if uniq ≠ [] ∧ tableHasCol uniq (homeroomColOfGC gc) then
      let homeroomClasses := uniq.map
        (mkHomeroomClassRow st mapping.fieldMap (gradeColOfGC gc) (homeroomColOfGC gc))
      let homeroomOutput := homeroomClasses.map (fun r =>
        mapping.fieldMap.map (fun p =>
          (p.1, if tableHasCol homeroomClasses p.1 then (getCell r p.1).getD none else none)))
      ({ st with homeroomClassesDf := homeroomIdxOf st mapping.fieldMap demo0 gc },
        [homeroomOutput])
    else (st, [])

/-- One merged subject-schedule row's `Class ID` (BlendedIndex lookup on the
stripped id, falling back to `generate_class_id`). -/
def subjectClassId (st : TState) (idCol : String) (r : Row) : Cell :=
  match alookup st.blendedClassMap (pyStrip (pyStr ((getCell r idCol).getD none))) with
  | some v => some v
  | none => generateClassId st r idCol

/-- One row of `subject_output`. -/
def mkSubjectOutputRow (st : TState) (fieldMap : List (String × Directive))
    (mergedCols : List String) (r : Row) : Row :=
  let cid := (getCell r "Class ID").getD none
  let nameCfg : Option DirDict :=
    match alookup fieldMap "Name" with
    | some (.dict d) => some d
    | some (.str _) => none
    | none => some []
  let namePart : Row :=
    match nameCfg with
    | some d =>
      let nm :=
        match lookupCell st.blendedClassMetadata cid with
        | some meta => meta.name
        | none =>
          generateClassName st r
            (pyLower ((dGetStr d "primary_teacher_flag").getD ""))
            (pyLower ((dGetStr d "teacher_last_name").getD "last name"))
            (pyLower ((dGetStr d "course_title").getD "title"))
            (pyLower ((dGetStr d "section_letter").getD "section letter"))
      [("Name", some nm)]
    | none => []
  let grade : Cell :=
    match lookupCell st.blendedClassMetadata cid with
    | some _ => some ""
    | none =>
      let gradeColName :=
        match alookup fieldMap "Grade" with
        | some (.dict d) => pyLower ((dGetStr d "column").getD "grade")
        | some (.str s) => pyLower s
        | none => "grade"
      if gradeColName ≠ "" then some (gradeToCeds (cellGetD r gradeColName (some "")))
      else some ""
  let schoolIdCol := colOfFieldMap fieldMap "School ID" "school number"
  let schoolId : Cell :=
    if mergedCols.contains schoolIdCol then (getCell r schoolIdCol).getD none
    else some ""
  [("Class ID", cid)] ++ namePart ++
    [("Grade", grade), ("School ID", schoolId),
     ("Start Date", some (startDateOf fieldMap st)),
     ("End Date", some (endDateOf fieldMap st))]

/-- The subject-class sub-pass over an already fetched, lowered and stripped
schedule table: merges course titles and staff last names, resolves class
ids through the BlendedIndex and builds `subject_output`. -/
def subjectPass (st : TState) (mapping : EntityMapping)
    (rawData : List (String × Table)) (gc : GlobalConfig)
    (nonHomeroom : Table) : List Table :=
  if nonHomeroom = [] then []
  else
    let teacherIdCol := teacherIdColOfGC gc
    let course0 := getSourceFile rawData mapping.sourceFiles "course_info"
    let staff0 := getSourceFile rawData mapping.sourceFiles "staff_info"
    let merged1 :=
      if course0 ≠ [] then
        let c1 := lowerCols course0
        let renamed :=
          if tableHasCol nonHomeroom "district course code" then
            renameCol nonHomeroom "district course code" "course code"
          else nonHomeroom
        leftMerge renamed
          (c1.map (fun r => selectCols r ["school number", "course code", "title"]))
          ["school number", "course code"]
      else nonHomeroom
    let merged2 :=
      if staff0 ≠ [] then
        let sf := stripStrCol (lowerCols staff0) teacherIdCol
        leftMerge merged1 (sf.map (fun r => selectCols r [teacherIdCol, "last name"]))
          [teacherIdCol]
      else merged1
    let idCol := colOfFieldMap mapping.fieldMap "Class ID" "master timetable id"
    let merged3 :=
      if tableHasCol merged2 idCol then
        merged2.map (fun r => setCell r "Class ID" (subjectClassId st idCol r))
      else
        merged2.map (fun r => setCell r "Class ID" (generateClassId st r idCol))
    [merged3.map (mkSubjectOutputRow st mapping.fieldMap (colsOf merged3))]

/-- The schedule table of the Classes pass after normalization: lowered
column names, teacher and `master timetable id` columns cast to stripped
strings, and the derived `grade_ceds` column appended (the source reads the
`grade` column unguarded and raises when it is absent; the total model then
normalizes a missing value, giving `"UG"`). -/
def classesSchedulePrep (schedule0 : Table) (gc : GlobalConfig) : Table :=
  let s1 := stripStrCol (stripStrCol (lowerCols schedule0) (teacherIdColOfGC gc))
    "master timetable id"
  s1.map (fun r =>
    setCell r "grade_ceds" (some (gradeToCeds ((getCell r "grade").getD none))))

/-- The non-homeroom filter (`~grade_ceds.isin(homeroom_grades)`). -/
def nonHomeroomOf (gc : GlobalConfig) (t : Table) : Table :=
  t.filter (fun r =>
    !(gc.homeroomGrades.contains
      (match (getCell r "grade_ceds").getD none with
       | some g => g
       | none => "")))

/-- `DataTransformer.transform` for `entity == "Classes"`: blended detection,
homeroom synthesis, subject synthesis, concatenation deduplicated by
`Class ID`. -/
def classesTransform (st0 : TState) (mapping : EntityMapping)
    (rawData : List (String × Table)) (gc : GlobalConfig) : TState × Table :=
  let teacherIdCol := teacherIdColOfGC gc
  let classInfo0 := getSourceFile rawData mapping.sourceFiles "class_info"
  let st1 :=
    if classInfo0 ≠ [] then
      let ci := stripStrCol (stripStrCol (lowerCols classInfo0) teacherIdCol)
        "master timetable id"
      detectBlendedClasses st0 ci mapping rawData gc
    else st0
  let hp := homeroomPass st1 mapping rawData gc
  let st2 := hp.1
  let homeroomFrames := hp.2
  let schedule0 := getSourceFile rawData mapping.sourceFiles "student_schedule"
  let subjectFrames :=
    if schedule0 ≠ [] then
      subjectPass st2 mapping rawData gc
        (nonHomeroomOf gc (classesSchedulePrep schedule0 gc))
    else []
  let finalClasses := homeroomFrames ++ subjectFrames
  if finalClasses ≠ [] then
    (st2, dedupBy (fun r => (getCell r "Class ID").getD none) (concatTables finalClasses))
  else (st2, [])

/-! ### The Enrollments pass (`transform`, `entity == "Enrollments"`) -/

/-- The `User ID` directive dict of the Enrollments field map (a string
directive raises in the source; the total model uses the empty dict). -/
def enrollUserIdDir (fieldMap : List (String × Directive)) : DirDict :=
  match alookup fieldMap "User ID" with
  | some (.dict d) => d
  | _ => []

/-- `student_id_col` of the Enrollments pass. -/
def studentIdColOf (fieldMap : List (String × Directive)) : String :=
  pyLower ((dGetStr (enrollUserIdDir fieldMap) "student_id_col").getD "student number")

/-- `staff_id_col` of the Enrollments pass. -/
def staffIdColOf (fieldMap : List (String × Directive)) : String :=
  pyLower ((dGetStr (enrollUserIdDir fieldMap) "staff_id_col").getD "teacher id")

/-- The `astype(str).str.strip()` cast applied to the staff-id column of the
HomeroomIndex at the start of the homeroom merge (line 639–640 of the
source), performed only when the column is present. -/
def restripHomeroomIdx (idx : Table) (staffIdCol : String) : Table :=
  if tableHasCol idx staffIdCol then
    idx.map (fun r => applyColRow r staffIdCol (fun v => some (pyStrip (pyStr v))))
  else idx

/-- The homeroom-enrollment part of the Enrollments pass.  It runs inside a
`try` block: a raised `KeyError` (a merge key or a selected column missing
from the frames) is caught and the part contributes nothing, but the
restrip of the HomeroomIndex has already happened by then.  Returns the new
HomeroomIndex and the emitted rows (student rows then teacher rows). -/
def homeroomEnrollPart (st : TState) (gc : GlobalConfig)
    (homeroomStudents : Table) (studentIdCol staffIdCol : String) :
    Table × List Row :=
  let homeroomCol := homeroomColOfGC gc
  let idx1 := restripHomeroomIdx st.homeroomClassesDf staffIdCol
  if tableHasCol homeroomStudents "school number" ∧
      tableHasCol homeroomStudents homeroomCol ∧
      tableHasCol idx1 "school number" ∧ tableHasCol idx1 homeroomCol then
    let mergedH := leftMerge homeroomStudents idx1 ["school number", homeroomCol]
    if tableHasCol mergedH "Class ID" then
      let valid := mergedH.filter (fun r => notnaCell ((getCell r "Class ID").getD none))
      if valid ≠ [] then
        if tableHasCol valid studentIdCol then
          let studentRows := valid.map (fun r =>
            [("Class ID", (getCell r "Class ID").getD none),
             ("User ID", (getCell r studentIdCol).getD none),
             ("school number", (getCell r "school number").getD none),
             ("Role", (some "student" : Cell))])
          let yCol := staffIdCol ++ "_y"
          let teacherRows :=
            if tableHasCol valid yCol then
              ((dedupBy (fun r => (getCell r "Class ID").getD none) valid).map (fun r =>
                [("Class ID", (getCell r "Class ID").getD none),
                 ("User ID", (getCell r yCol).getD none),
                 ("Role", (some "teacher" : Cell))])).filter (fun r =>
                  let u := (getCell r "User ID").getD none
                  notnaCell u && decide (pyStrip (pyStr u) ≠ ""))
            else []
          (idx1, studentRows ++ teacherRows)
        else (idx1, [])
      else (idx1, [])
    else (idx1, [])
  else (idx1, [])

/-- `non_homeroom` with its `Class ID` column resolved (BlendedIndex hit or
generated id), the working frame of the subject enrollments. -/
def enrollNh2 (st : TState) (fieldMap : List (String × Directive))
    (nonHomeroom : Table) : Table :=
  let mtIdCol := colOfFieldMap fieldMap "Class ID" "master timetable id"
  if tableHasCol nonHomeroom mtIdCol then
    (stripStrCol nonHomeroom mtIdCol).map (fun r =>
      let cid :=
        match lookupCell st.blendedClassMap ((getCell r mtIdCol).getD none) with
        | some v => some v
        | none => generateClassId st r mtIdCol
      setCell r "Class ID" cid)
  else nonHomeroom.map (fun r => setCell r "Class ID" (generateClassId st r mtIdCol))

/-- The subject part of the Enrollments pass, over the non-homeroom schedule
rows: student rows, the blended teacher-roster rows, and per-row teacher
rows for non-blended classes. -/
def subjectEnrollPart (st : TState) (fieldMap : List (String × Directive))
    (nonHomeroom : Table) (studentIdCol staffIdCol : String) : List Row :=
  if nonHomeroom = [] then []
  else
    let nh2 := enrollNh2 st fieldMap nonHomeroom
    let studentRows :=
      if tableHasCol nh2 studentIdCol ∧ tableHasCol nh2 "Class ID" then
        nh2.map (fun r =>
          [("Class ID", (getCell r "Class ID").getD none),
           ("User ID", (getCell r studentIdCol).getD none),
           ("school number", (getCell r "school number").getD none),
           ("Role", (some "student" : Cell))])
      else []
    let blendedRows := dedupBy id (st.blendedTeacherMap.flatMap (fun p =>
      let school :=
        match alookup st.blendedClassMetadata p.1 with
        | some meta => meta.schoolId
        | none => ""
      p.2.map (fun t =>
        [("Class ID", (some p.1 : Cell)), ("User ID", (some t : Cell)),
         ("Role", (some "teacher" : Cell)), ("school number", (some school : Cell))])))
    let nonBlended := nh2.filter (fun r =>
      !(match (getCell r "Class ID").getD none with
        | some s => (akeys st.blendedTeacherMap).contains s
        | none => false))
    let teacherRows :=
      if tableHasCol nonBlended staffIdCol ∧ tableHasCol nonBlended "Class ID" then
        (nonBlended.map (fun r =>
          [("Class ID", (getCell r "Class ID").getD none),
           ("User ID", (getCell r staffIdCol).getD none),
           ("school number", (getCell r "school number").getD none),
           ("Role", (some "teacher" : Cell))])).filter (fun r =>
            let u := (getCell r "User ID").getD none
            notnaCell u && decide (pyStrip (pyStr u) ≠ ""))
      else []
    studentRows ++ blendedRows ++ teacherRows

/-- The `(Class ID, User ID, Role)` key of an enrollment row. -/
def enrollKey (r : Row) : Cell × Cell × Cell :=
  ((getCell r "Class ID").getD none, (getCell r "User ID").getD none,
    (getCell r "Role").getD none)

/-- The Enrollments schedule table after normalization (lowered columns,
staff-id column cast to stripped strings, `grade_ceds` appended; as in the
Classes pass the source reads `grade` unguarded). -/
def enrollSchedulePrep (schedule0 : Table) (staffIdCol : String) : Table :=
  (stripStrCol (lowerCols schedule0) staffIdCol).map (fun r =>
    setCell r "grade_ceds" (some (gradeToCeds ((getCell r "grade").getD none))))

/-- The homeroom-student filter of the Enrollments pass (grade column
normalized when present, then `isin(homeroom_grades)`; the source raises
when the grade column is absent). -/
def enrollHomeroomStudents (demo : Table) (gc : GlobalConfig) : Table :=
  let gradeCol := gradeColOfGC gc
  (applyCedsCol demo gradeCol).filter (fun r =>
    match (getCell r gradeCol).getD none with
    | some g => gc.homeroomGrades.contains g
    | none => false)

/-- The conditional homeroom step of the Enrollments pass: when the
demographic table and the HomeroomIndex are both non-empty and homeroom
students exist, run the (try-guarded) homeroom part, store the restripped
index back into the state, and collect its rows. -/
def enrollHomeroomStep (st0 : TState) (gc : GlobalConfig) (demo1 : Table)
    (studentIdCol staffIdCol : String) : TState × List Row :=
  if demo1 ≠ [] ∧ st0.homeroomClassesDf ≠ [] then
    let homeroomStudents := enrollHomeroomStudents demo1 gc
    if homeroomStudents ≠ [] then
      let pr := homeroomEnrollPart st0 gc homeroomStudents studentIdCol staffIdCol
      ({ st0 with homeroomClassesDf := pr.1 }, pr.2)
    else (st0, [])
  else (st0, [])

/-- `DataTransformer.transform` for `entity == "Enrollments"`. -/
def enrollmentsTransform (st0 : TState) (mapping : EntityMapping)
    (rawData : List (String × Table)) (gc : GlobalConfig) : TState × Table :=
  let schedule0 := getSourceFile rawData mapping.sourceFiles "student_schedule"
  if schedule0 = [] then (st0, [])
  else
    let fieldMap := mapping.fieldMap
    let studentIdCol := studentIdColOf fieldMap
    let staffIdCol := staffIdColOf fieldMap
    let demo0 := getSourceFile rawData mapping.sourceFiles "student_demographic"
    let demo1 := if demo0 ≠ [] then stripStrCol (lowerCols demo0) staffIdCol else demo0
    let hstep := enrollHomeroomStep st0 gc demo1 studentIdCol staffIdCol
    let st1 := hstep.1
    let homeroomRows := hstep.2
    let nonHomeroom := nonHomeroomOf gc (enrollSchedulePrep schedule0 staffIdCol)
    let subjectRows := subjectEnrollPart st1 fieldMap nonHomeroom studentIdCol staffIdCol
    let finalRows := homeroomRows ++ subjectRows
    if finalRows ≠ [] then
      let result := dedupBy enrollKey (alignRows finalRows)
      let renamed :=
        if tableHasCol result "school number" then
          renameCol result "school number" "School ID"
        else result
      (st1, renamed)
    else (st1, [])

/-! ### The generic field-mapping loop (`transform`, fall-through path) -/

/-- The single-argument transform methods reachable through
`getattr(self, transform_name)` followed by `Series.apply`; any other name
raises (`AttributeError`, or `TypeError` on apply for the multi-argument
methods) and that exception is caught by the per-field handler. -/
def applyTransformFn (name : String) : Option (Cell → String) :=
  if name == "grade_to_ceds" then some gradeToCeds
  else if name == "map_role" then some mapRole
  else none

/-- `str(v)` of a config scalar. -/
def cfgValStr : CfgVal → String
  | .s v => v
  | .b v => if v then "True" else "False"

/-- Evaluate one field directive against the working table; `ok` is the
materialized column (length = row count), `error` a raised exception to be
caught by the loop.  Resolution order follows the source: literal `value`,
`use_academic_year`, `append_year_to_id`, column copy with optional named
transform (an absent column null-fills), bare-string column copy. -/
def evalFieldDirective (st : TState) (working : Table) (tgt : String)
    (dir : Directive) : Except Unit (List Cell) :=
  match dir with
  | .dict d =>
    if dHas d "value" then
      .ok (List.replicate working.length
        (some (cfgValStr ((alookup d "value").getD (.s "")))))
    else if dGetBool d "use_academic_year" then
      .ok (List.replicate working.length
        (some (if tgt == "Start Date" then st.academicStart else st.academicEnd)))
    else if dGetBool d "append_year_to_id" then
      let colName := pyLower ((dGetStr d "column").getD "")
      .ok (working.map (fun r => generateClassId st r colName))
    else
      let colName := pyLower ((dGetStr d "column").getD "")
      let transformName := (dGetStr d "transform").getD ""
      if tableHasCol working colName then
        if transformName ≠ "" then
          match applyTransformFn transformName with
          | some f => .ok (working.map (fun r => some (f ((getCell r colName).getD none))))
          | none => .error ()
        else .ok (working.map (fun r => (getCell r colName).getD none))
      else .ok (List.replicate working.length none)
  | .str s =>
    let col := pyLower s
    if tableHasCol working col then
      .ok (working.map (fun r => (getCell r col).getD none))
    else .ok (List.replicate working.length none)

/-- One iteration of the generic per-field loop: a target field already in
the result (populated by bespoke pre-processing) is skipped, a caught
exception null-fills exactly the raising field, any other outcome appends
its materialized column. -/
def fieldStep (st : TState) (working : Table)
    (result : List (String × List Cell)) (p : String × Directive) :
    List (String × List Cell) :=
  if result.any (fun q => q.1 == p.1) then result
  else
    match evalFieldDirective st working p.1 p.2 with
    | .ok vals => result ++ [(p.1, vals)]
    | .error _ => result ++ [(p.1, List.replicate working.length none)]

/-- The generic per-field loop (lines 734–766). -/
def fieldMapLoop (st : TState) (working : Table)
    (fieldMap : List (String × Directive)) (init : List (String × List Cell)) :
    List (String × List Cell) :=
  fieldMap.foldl (fieldStep st working) init

/-! ## Lemmas about the list primitives -/

theorem rfindSpace_none_spec (l : List Char) (h : rfindSpace l = none) :
    ∀ j : Nat, l[j]? ≠ some ' ' := by
  induction l with
  | nil => intro j; simp
  | cons c cs ih =>
    rw [rfindSpace] at h
    cases hcs : rfindSpace cs with
    | some k => simp [hcs] at h
    | none =>
      rw [hcs] at h
      intro j
      cases j with
      | zero =>
        simp only [List.getElem?_cons_zero]
        intro hc
        simp only [Option.some.injEq] at hc
        subst hc
        simp at h
      | succ j' =>
        simp only [List.getElem?_cons_succ]
        exact ih hcs j'

theorem rfindSpace_some_spec (l : List Char) (i : Nat) (h : rfindSpace l = some i) :
    i < l.length ∧ l[i]? = some ' ' ∧ ∀ j : Nat, i < j → l[j]? ≠ some ' ' := by
  induction l generalizing i with
  | nil => simp [rfindSpace] at h
  | cons c cs ih =>
    rw [rfindSpace] at h
    cases hcs : rfindSpace cs with
    | some k =>
      rw [hcs] at h
      simp only [Option.some.injEq] at h
      subst h
      obtain ⟨hlt, hget, hmax⟩ := ih k hcs
      refine ⟨by simpa using Nat.succ_lt_succ hlt, by simpa using hget, ?_⟩
      intro j hj
      cases j with
      | zero => omega
      | succ j' =>
        simp only [List.getElem?_cons_succ]
        exact hmax j' (Nat.lt_of_succ_lt_succ hj)
    | none =>
      rw [hcs] at h
      by_cases hc : c = ' '
      · subst hc
        simp only [beq_self_eq_true, if_true, Option.some.injEq] at h
        subst h
        refine ⟨by simp, by simp, ?_⟩
        intro j hj
        cases j with
        | zero => omega
        | succ j' =>
          simp only [List.getElem?_cons_succ]
          exact rfindSpace_none_spec cs hcs j'
      · simp [hc] at h

theorem rfindSpace_none_no_space (l : List Char) (h : rfindSpace l = none) :
    ' ' ∉ l := by
  intro hmem
  obtain ⟨j, hj, hget⟩ := List.getElem_of_mem hmem
  exact rfindSpace_none_spec l h j (by simp [List.getElem?_eq_getElem hj, hget])

theorem rfindSpace_some_of_mem (l : List Char) (h : ' ' ∈ l) :
    ∃ i, rfindSpace l = some i := by
  cases hr : rfindSpace l with
  | some i => exact ⟨i, rfl⟩
  | none => exact absurd h (rfindSpace_none_no_space l hr)

/-! ## C6 — name truncation -/

/-- C6: the truncation function returns a composed class name unchanged when
its length is at most 100; on a longer name it returns at most 100
characters ending in the ellipsis marker `"..."`, cut at the last space
strictly before position 97 when the first 97 characters contain one, and
hard-cut at position 97 (splitting a word) only when they contain none. -/
theorem C6_truncate_name (name : List Char) :
    (name.length ≤ 100 → truncateName name = name) ∧
    (100 < name.length →
      (truncateName name).length ≤ 100 ∧
      (∃ pre, truncateName name = pre ++ ['.', '.', '.']) ∧
      (' ' ∈ name.take 97 →
        ∃ i, i < 97 ∧ name[i]? = some ' ' ∧
          (∀ j : Nat, i < j → j < 97 → name[j]? ≠ some ' ') ∧
          truncateName name = name.take i ++ ['.', '.', '.']) ∧
      (' ' ∉ name.take 97 →
        truncateName name = name.take 97 ++ ['.', '.', '.'])) := by
  constructor
  · intro h
    simp [truncateName, h]
  · intro h
    have hnle : ¬ name.length ≤ 100 := by omega
    have heq : truncateName name =
        (match rfindSpace (name.take 97) with
         | some lastSpace => name.take lastSpace ++ ['.', '.', '.']
         | none => name.take 97 ++ ['.', '.', '.']) := by
      simp [truncateName, hnle]
    cases hr : rfindSpace (name.take 97) with
    | some i =>
      rw [hr] at heq
      obtain ⟨hilt, hget, hmax⟩ := rfindSpace_some_spec _ i hr
      have h97 : (name.take 97).length = 97 := by
        simp only [List.length_take]
        omega
      rw [h97] at hilt
      have hgetname : name[i]? = some ' ' := by
        rw [List.getElem?_take] at hget
        simpa [hilt] using hget
      refine ⟨?_, ⟨name.take i, heq⟩, ?_, ?_⟩
      · rw [heq]
        simp only [List.length_append, List.length_take, List.length_cons,
          List.length_nil]
        omega
      · intro _
        refine ⟨i, hilt, hgetname, ?_, heq⟩
        intro j hij hj97
        have := hmax j hij
        rw [List.getElem?_take] at this
        simpa [hj97] using this
      · intro hns
        exact absurd (List.getElem?_mem hget) hns
    | none =>
      rw [hr] at heq
      have hns := rfindSpace_none_no_space _ hr
      refine ⟨?_, ⟨name.take 97, heq⟩, ?_, fun _ => heq⟩
      · rw [heq]
        simp only [List.length_append, List.length_take, List.length_cons,
          List.length_nil]
        omega
      · intro hsp
        exact absurd hsp hns

/-- Witness for C6 at concrete names: a short name is unchanged and an
overlong one is truncated to at most 100 characters ending in `"..."`. -/
theorem C6_truncate_name_witness :
    truncateName ("Math 7".data) = "Math 7".data ∧
    (truncateName (List.replicate 150 'a')).length ≤ 100 := by
  constructor
  · exact (C6_truncate_name ("Math 7".data)).1 (by decide)
  · exact ((C6_truncate_name (List.replicate 150 'a')).2 (by simp)).1

/-! ## Lemmas about dict operations -/

theorem alookup_nil {α : Type _} (k : String) : alookup ([] : List (String × α)) k = none := rfl

theorem alookup_cons {α : Type _} (p : String × α) (m : List (String × α)) (k : String) :
    alookup (p :: m) k = if p.1 = k then some p.2 else alookup m k := by
  by_cases h : p.1 = k <;> simp [alookup, List.find?_cons, h]

theorem alookup_append {α : Type _} (m₁ m₂ : List (String × α)) (k : String) :
    alookup (m₁ ++ m₂) k = (alookup m₁ k).or (alookup m₂ k) := by
  simp only [alookup, List.find?_append]
  cases h1 : List.find? (fun p => p.1 == k) m₁ <;> simp

theorem alookup_eq_some_of_mem {α : Type _} (m : List (String × α)) (k : String) (v : α)
    (hnd : (m.map Prod.fst).Nodup) (hm : (k, v) ∈ m) : alookup m k = some v := by
  induction m with
  | nil => simp at hm
  | cons p rest ih =>
    simp only [List.map_cons, List.nodup_cons] at hnd
    rcases List.mem_cons.mp hm with heq | hmem
    · subst heq
      simp [alookup_cons]
    · have hne : p.1 ≠ k := by
        intro hk
        exact hnd.1 (hk ▸ (List.mem_map.mpr ⟨(k, v), hmem, rfl⟩))
      rw [alookup_cons, if_neg hne]
      exact ih hnd.2 hmem

theorem alookup_eq_none_of_not_mem {α : Type _} (m : List (String × α)) (k : String)
    (h : k ∉ akeys m) : alookup m k = none := by
  induction m with
  | nil => rfl
  | cons p rest ih =>
    simp only [akeys, List.map_cons, List.mem_cons, not_or] at h
    rw [alookup_cons, if_neg (fun he => h.1 he.symm)]
    exact ih (by simpa [akeys] using h.2)

theorem mem_of_alookup_eq_some {α : Type _} {m : List (String × α)} {k : String} {v : α}
    (h : alookup m k = some v) : (k, v) ∈ m := by
  rw [alookup] at h
  cases hf : List.find? (fun p => p.1 == k) m with
  | none => rw [hf] at h; exact absurd h (by simp)
  | some p =>
    rw [hf] at h
    simp only [Option.map_some', Option.some.injEq] at h
    have hk : p.1 = k := by simpa using List.find?_some hf
    have hmem := List.mem_of_find?_eq_some hf
    have hp : p = (k, v) := by
      cases p
      simp only [Prod.mk.injEq]
      exact ⟨hk, h⟩
    exact hp ▸ hmem

theorem alookup_aset_self {α : Type _} (m : List (String × α)) (k : String) (v : α) :
    alookup (aset m k v) k = some v := by
  induction m with
  | nil => simp [aset, alookup_cons]
  | cons p rest ih =>
    by_cases hp : p.1 = k
    · simp [aset, List.any_cons, hp, alookup_cons]
    · by_cases hr : rest.any (fun q => q.1 == k)
      · have hih := ih
        rw [aset, if_pos hr] at hih
        rw [aset, List.any_cons, if_pos (by simp [hp, hr])]
        simpa [alookup_cons, hp] using hih
      · have hih := ih
        rw [aset, if_neg hr] at hih
        rw [aset, List.any_cons, if_neg (by simp [hp, hr])]
        simpa [alookup_cons, hp] using hih

theorem alookup_map_set_ne {α : Type _} (m : List (String × α)) (k : String) (v : α)
    (k' : String) (h : k' ≠ k) :
    alookup (m.map (fun q => if q.1 == k then (k, v) else q)) k' = alookup m k' := by
  induction m with
  | nil => rfl
  | cons p rest ih =>
    by_cases hp : p.1 = k
    · have hkne : ¬ (k = k') := fun he => h he.symm
      have hpne : ¬ (p.1 = k') := by rw [hp]; exact hkne
      have hhead : (if (p.1 == k) = true then (k, v) else p) = (k, v) := by
        simp [hp]
      rw [List.map_cons, hhead, alookup_cons, alookup_cons]
      simp only [if_neg hkne, if_neg hpne]
      exact ih
    · have hhead : (if (p.1 == k) = true then (k, v) else p) = p := by
        simp [hp]
      rw [List.map_cons, hhead, alookup_cons, alookup_cons]
      by_cases hp' : p.1 = k'
      · simp [hp']
      · rw [if_neg hp', if_neg hp']
        exact ih

theorem alookup_aset_ne {α : Type _} (m : List (String × α)) (k : String) (v : α)
    (k' : String) (h : k' ≠ k) : alookup (aset m k v) k' = alookup m k' := by
  rw [aset]
  by_cases hany : m.any (fun q => q.1 == k)
  · rw [if_pos hany]
    exact alookup_map_set_ne m k v k' h
  · rw [if_neg hany, alookup_append]
    have hnone : alookup [(k, v)] k' = none := by
      rw [alookup_cons, if_neg (fun he => h he.symm)]
      rfl
    rw [hnone, Option.or_none]

theorem mem_akeys_aset {α : Type _} (m : List (String × α)) (k : String) (v : α)
    (b : String) : b ∈ akeys (aset m k v) ↔ b ∈ akeys m ∨ b = k := by
  rw [aset]
  by_cases hany : m.any (fun q => q.1 == k)
  · rw [if_pos hany]
    simp only [akeys, List.map_map, List.mem_map, Function.comp]
    constructor
    · rintro ⟨q, hq, hqb⟩
      by_cases hqk : q.1 = k
      · right
        rw [← hqb]
        simp [hqk]
      · left
        exact ⟨q, hq, by simpa [hqk] using hqb⟩
    · rintro (⟨q, hq, hqb⟩ | hb)
      · by_cases hqk : q.1 = k
        · refine ⟨q, hq, ?_⟩
          simp only [hqk, beq_self_eq_true, if_true]
          rw [← hqb, hqk]
        · exact ⟨q, hq, by simpa [hqk] using hqb⟩
      · obtain ⟨p, hp, hpk⟩ := List.any_eq_true.mp hany
        refine ⟨p, hp, ?_⟩
        simp [show p.1 = k by simpa using hpk, hb]
  · rw [if_neg hany]
    simp [akeys]

theorem alookup_aset_cases {α : Type _} {m : List (String × α)} {k k' : String}
    {v w : α} (h : alookup (aset m k v) k' = some w) :
    alookup m k' = some w ∨ (k' = k ∧ w = v) := by
  by_cases hk : k' = k
  · right
    refine ⟨hk, ?_⟩
    rw [hk] at h
    rw [alookup_aset_self] at h
    exact (Option.some.injEq _ _ ▸ h).symm
  · left
    rw [alookup_aset_ne m k v k' hk] at h
    exact h

/-- Writes of the same value preserve an established binding. -/
theorem alookup_foldl_aset_preserve {α β : Type _} (g : β → String) (v : α)
    (l : List β) : ∀ (m1 : List (String × α)) (k0 : String),
    alookup m1 k0 = some v →
    alookup (l.foldl (fun m x => aset m (g x) v) m1) k0 = some v := by
  induction l with
  | nil => intro m1 k0 h; simp only [List.foldl_nil]; exact h
  | cons y ys ih =>
    intro m1 k0 h
    rw [List.foldl_cons]
    apply ih
    by_cases hy : g y = k0
    · rw [← hy, alookup_aset_self]
    · rw [alookup_aset_ne _ _ _ _ (fun he => hy he.symm)]
      exact h

/-- Looking a key up after a fold of same-valued assignments: a key that was
assigned maps to the common value. -/
theorem alookup_foldl_aset_of_mem {α β : Type _} (g : β → String) (v : α)
    (l : List β) (m0 : List (String × α)) (b : β) (hb : b ∈ l) :
    alookup (l.foldl (fun m x => aset m (g x) v) m0) (g b) = some v := by
  induction l generalizing m0 with
  | nil => simp at hb
  | cons x xs ih =>
    rw [List.foldl_cons]
    rcases List.mem_cons.mp hb with heq | hmem
    · subst heq
      exact alookup_foldl_aset_preserve g v xs _ _ (alookup_aset_self m0 (g b) v)
    · exact ih (aset m0 (g x) v) hmem

/-- Looking any key up after the fold: either it was already there or the
value is the common assigned value. -/
theorem alookup_foldl_aset_cases {α β : Type _} (g : β → String) (v : α)
    (l : List β) (m0 : List (String × α)) (k : String) (w : α)
    (h : alookup (l.foldl (fun m x => aset m (g x) v) m0) k = some w) :
    alookup m0 k = some w ∨ w = v := by
  induction l generalizing m0 with
  | nil => exact Or.inl h
  | cons x xs ih =>
    rw [List.foldl_cons] at h
    rcases ih (aset m0 (g x) v) h with hcase | hcase
    · rcases alookup_aset_cases hcase with hc | hc
      · exact Or.inl hc
      · exact Or.inr hc.2
    · exact Or.inr hcase

/-- A fold of same-valued assignments only adds the written keys. -/
theorem mem_akeys_foldl_aset {α β : Type _} (g : β → String) (v : α)
    (l : List β) (m0 : List (String × α)) (b : String)
    (h : b ∈ akeys (l.foldl (fun m x => aset m (g x) v) m0)) :
    b ∈ akeys m0 ∨ b ∈ l.map g := by
  induction l generalizing m0 with
  | nil => exact Or.inl h
  | cons x xs ih =>
    rw [List.foldl_cons] at h
    rcases ih (aset m0 (g x) v) h with hcase | hcase
    · rcases (mem_akeys_aset m0 (g x) v b).mp hcase with hc | hc
      · exact Or.inl hc
      · exact Or.inr (by simp [hc])
    · exact Or.inr (List.mem_cons_of_mem _ hcase)

/-! ## Lemmas about `dedupBy` -/

theorem mem_of_mem_dedupByAux {α β : Type _} [DecidableEq β] {key : α → β}
    {l : List α} {seen : List β} {a : α} (h : a ∈ dedupByAux key seen l) :
    a ∈ l := by
  induction l generalizing seen with
  | nil => simp [dedupByAux] at h
  | cons x xs ih =>
    rw [dedupByAux] at h
    by_cases hx : key x ∈ seen
    · rw [if_pos hx] at h
      exact List.mem_cons_of_mem x (ih h)
    · rw [if_neg hx] at h
      rcases List.mem_cons.mp h with heq | hmem
      · exact heq ▸ List.mem_cons_self x xs
      · exact List.mem_cons_of_mem x (ih hmem)

theorem mem_of_mem_dedupBy {α β : Type _} [DecidableEq β] {key : α → β}
    {l : List α} {a : α} (h : a ∈ dedupBy key l) : a ∈ l :=
  mem_of_mem_dedupByAux h

theorem key_not_seen_of_mem_dedupByAux {α β : Type _} [DecidableEq β]
    {key : α → β} {l : List α} {seen : List β} {a : α}
    (h : a ∈ dedupByAux key seen l) : key a ∉ seen := by
  induction l generalizing seen with
  | nil => simp [dedupByAux] at h
  | cons x xs ih =>
    rw [dedupByAux] at h
    by_cases hx : key x ∈ seen
    · rw [if_pos hx] at h
      exact ih h
    · rw [if_neg hx] at h
      rcases List.mem_cons.mp h with heq | hmem
      · exact heq ▸ hx
      · intro hmem2
        exact ih hmem (List.mem_cons_of_mem _ hmem2)

theorem mem_map_key_dedupByAux {α β : Type _} [DecidableEq β] (key : α → β)
    (l : List α) : ∀ (seen : List β) (b : β),
    b ∈ (dedupByAux key seen l).map key ↔ b ∉ seen ∧ b ∈ l.map key := by
  induction l with
  | nil => intro seen b; simp [dedupByAux]
  | cons x xs ih =>
    intro seen b
    rw [dedupByAux]
    by_cases hx : key x ∈ seen
    · rw [if_pos hx, ih]
      constructor
      · rintro ⟨hns, hmem⟩
        refine ⟨hns, ?_⟩
        simp only [List.map_cons, List.mem_cons]
        exact Or.inr hmem
      · rintro ⟨hns, hmem⟩
        refine ⟨hns, ?_⟩
        simp only [List.map_cons, List.mem_cons] at hmem
        rcases hmem with heq | hmem2
        · subst heq
          exact absurd hx hns
        · exact hmem2
    · rw [if_neg hx]
      simp only [List.map_cons, List.mem_cons]
      rw [ih]
      constructor
      · rintro (heq | ⟨hns, hmem⟩)
        · subst heq
          exact ⟨hx, Or.inl rfl⟩
        · refine ⟨fun hs => hns (List.mem_cons_of_mem _ hs), Or.inr hmem⟩
      · rintro ⟨hns, heq | hmem⟩
        · exact Or.inl heq
        · by_cases hbx : b = key x
          · exact Or.inl hbx
          · exact Or.inr ⟨by simp [hbx, hns], hmem⟩

theorem mem_map_key_dedupBy {α β : Type _} [DecidableEq β] (key : α → β)
    (l : List α) (b : β) : b ∈ (dedupBy key l).map key ↔ b ∈ l.map key := by
  rw [dedupBy, mem_map_key_dedupByAux key l [] b]
  simp

theorem pairwise_key_dedupByAux {α β : Type _} [DecidableEq β] (key : α → β)
    (l : List α) (seen : List β) :
    (dedupByAux key seen l).Pairwise (fun a b => key a ≠ key b) := by
  induction l generalizing seen with
  | nil => simp [dedupByAux]
  | cons x xs ih =>
    rw [dedupByAux]
    by_cases hx : key x ∈ seen
    · rw [if_pos hx]
      exact ih seen
    · rw [if_neg hx]
      refine List.Pairwise.cons ?_ (ih (key x :: seen))
      intro a ha
      have := key_not_seen_of_mem_dedupByAux ha
      intro he
      exact this (he ▸ List.mem_cons_self _ _)

theorem pairwise_key_dedupBy {α β : Type _} [DecidableEq β] (key : α → β)
    (l : List α) : (dedupBy key l).Pairwise (fun a b => key a ≠ key b) :=
  pairwise_key_dedupByAux key l []

theorem countP_dedupByAux {α β : Type _} [DecidableEq β] (key : α → β)
    (l : List α) (seen : List β) (k : β) (hk : k ∉ seen) (h : k ∈ l.map key) :
    (dedupByAux key seen l).countP (fun a => decide (key a = k)) = 1 := by
  induction l generalizing seen with
  | nil => simp at h
  | cons x xs ih =>
    rw [dedupByAux]
    by_cases hx : key x ∈ seen
    · rw [if_pos hx]
      apply ih seen hk
      rcases List.mem_map.mp h with ⟨c, hc, hcb⟩
      rcases List.mem_cons.mp hc with heq | hmem
      · subst heq
        rw [hcb] at hx
        exact absurd hx hk
      · exact List.mem_map.mpr ⟨c, hmem, hcb⟩
    · rw [if_neg hx]
      by_cases hkx : k = key x
      · subst hkx
        rw [List.countP_cons]
        have hzero : (dedupByAux key (key x :: seen) xs).countP
            (fun a => decide (key a = key x)) = 0 := by
          rw [List.countP_eq_zero]
          intro a ha
          have := key_not_seen_of_mem_dedupByAux ha
          simp only [decide_eq_true_eq]
          intro he
          exact this (he ▸ List.mem_cons_self _ _)
        rw [hzero]
        simp
      · rw [List.countP_cons]
        simp only [decide_eq_true_eq, if_neg (fun he : key x = k => hkx he.symm)]
        rw [Nat.add_zero]
        apply ih
        · simp [hkx, hk]
        · rcases List.mem_map.mp h with ⟨c, hc, hcb⟩
          rcases List.mem_cons.mp hc with heq | hmem
          · exact absurd (heq ▸ hcb).symm hkx
          · exact List.mem_map.mpr ⟨c, hmem, hcb⟩

theorem countP_dedupBy_eq_one {α β : Type _} [DecidableEq β] (key : α → β)
    (l : List α) (k : β) (h : k ∈ l.map key) :
    (dedupBy key l).countP (fun a => decide (key a = k)) = 1 :=
  countP_dedupByAux key l [] k (by simp) h

/-! ## C7 — the grade normalizer -/

/-- C7: the grade normalizer is total and deterministic; an input whose
trimmed uppercase form is a key of `CEDS_MAPPING` yields the mapped code,
any other input (the missing value included) yields `"UG"`. -/
theorem C7_grade_to_ceds (g : Cell) :
    (∀ code, (gradeKey g, code) ∈ CEDS_MAPPING → gradeToCeds g = code) ∧
    (gradeKey g ∉ CEDS_MAPPING.map Prod.fst → gradeToCeds g = "UG") ∧
    gradeToCeds none = "UG" := by
  refine ⟨?_, ?_, by decide⟩
  · intro code hmem
    have hnd : (CEDS_MAPPING.map Prod.fst).Nodup := by decide
    rw [gradeToCeds, alookup_eq_some_of_mem CEDS_MAPPING (gradeKey g) code hnd hmem]
    rfl
  · intro hnmem
    rw [gradeToCeds, alookup_eq_none_of_not_mem CEDS_MAPPING (gradeKey g) hnmem]
    rfl

/-- Witness for C7: a mapped label (`" k "` normalizes to the key `K`), an
unmapped label, and the missing value. -/
theorem C7_grade_to_ceds_witness :
    gradeToCeds (some " k ") = "KG" ∧ gradeToCeds (some "zzz") = "UG" := by
  constructor
  · exact (C7_grade_to_ceds (some " k ")).1 "KG" (by decide)
  · exact (C7_grade_to_ceds (some "zzz")).2.1 (by decide)

/-! ## C2 — per-group blended detection -/

/-- The loop body in its two non-trivial shapes: skipped, or a blended write
of all three maps under the synthetic id. -/
theorem processSessionGroup_cases (st : TState) (workingRecords : List Row)
    (teacherIdCol : String) (fieldMap : List (String × Directive))
    (titleMap gradeMap : List (String × String)) (sessionKey : String)
    (group : List Row) :
    processSessionGroup st workingRecords teacherIdCol fieldMap titleMap gradeMap
      sessionKey group = st ∨
    ∃ roster meta,
      processSessionGroup st workingRecords teacherIdCol fieldMap titleMap gradeMap
        sessionKey group =
      { st with
        blendedClassMap := (group.map mtIdCell).foldl
          (fun m c => aset m (pyStr c)
            ("BLENDED_" ++ sessionKey ++ "_" ++ toString st.schoolYear))
          st.blendedClassMap
        blendedTeacherMap := aset st.blendedTeacherMap
          ("BLENDED_" ++ sessionKey ++ "_" ++ toString st.schoolYear) roster
        blendedClassMetadata := aset st.blendedClassMetadata
          ("BLENDED_" ++ sessionKey ++ "_" ++ toString st.schoolYear) meta } := by
  by_cases hle : group.length ≤ 1
  · left
    rw [processSessionGroup.eq_def, if_pos hle]
  · by_cases hval : validateBlendedClass group gradeMap = true
    · right
      rw [processSessionGroup.eq_def, if_neg hle, if_pos hval]
      exact ⟨_, _, rfl⟩
    · left
      rw [processSessionGroup.eq_def, if_neg hle, if_neg hval]

/-- C2: in the grouping of `class_info` rows by composite session key, a
one-row group is never marked blended; a multi-row group spanning fewer than
two distinct CEDS-normalized grades is never marked blended and writes
nothing; a multi-row group spanning at least two is marked blended, and then
every member session id is mapped to the synthetic id
`BLENDED_{sessionKey}_{year}`, which is also registered in the teacher map. -/
theorem C2_blended_group_detection (st : TState) (workingRecords : List Row)
    (teacherIdCol : String) (fieldMap : List (String × Directive))
    (titleMap gradeMap : List (String × String)) (sessionKey : String)
    (group : List Row) :
    (group.length = 1 →
      validateBlendedClass group gradeMap = false ∧
      processSessionGroup st workingRecords teacherIdCol fieldMap titleMap gradeMap
        sessionKey group = st) ∧
    (2 ≤ group.length →
      (dedupBy id (collectGroupCeds group gradeMap)).length < 2 →
      validateBlendedClass group gradeMap = false ∧
      processSessionGroup st workingRecords teacherIdCol fieldMap titleMap gradeMap
        sessionKey group = st) ∧
    (2 ≤ group.length →
      2 ≤ (dedupBy id (collectGroupCeds group gradeMap)).length →
      validateBlendedClass group gradeMap = true ∧
      (∀ r ∈ group,
        alookup (processSessionGroup st workingRecords teacherIdCol fieldMap titleMap
            gradeMap sessionKey group).blendedClassMap (pyStr (mtIdCell r)) =
          some ("BLENDED_" ++ sessionKey ++ "_" ++ toString st.schoolYear)) ∧
      ("BLENDED_" ++ sessionKey ++ "_" ++ toString st.schoolYear) ∈
        akeys (processSessionGroup st workingRecords teacherIdCol fieldMap titleMap
          gradeMap sessionKey group).blendedTeacherMap) := by
  refine ⟨?_, ?_, ?_⟩
  · intro hlen
    have hle : group.length ≤ 1 := by omega
    constructor
    · rw [validateBlendedClass, if_pos hle]
    · rw [processSessionGroup.eq_def, if_pos hle]
  · intro hlen hgr
    have hle : ¬ group.length ≤ 1 := by omega
    have hval : validateBlendedClass group gradeMap = false := by
      rw [validateBlendedClass, if_neg hle]
      simpa using hgr
    exact ⟨hval, by rw [processSessionGroup.eq_def, if_neg hle, if_neg (by simp [hval])]⟩
  · intro hlen hgr
    have hle : ¬ group.length ≤ 1 := by omega
    have hval : validateBlendedClass group gradeMap = true := by
      rw [validateBlendedClass, if_neg hle]
      simpa using hgr
    refine ⟨hval, ?_, ?_⟩
    · intro r hr
      have hmap : (processSessionGroup st workingRecords teacherIdCol fieldMap titleMap
          gradeMap sessionKey group).blendedClassMap = (group.map mtIdCell).foldl
          (fun m c => aset m (pyStr c)
            ("BLENDED_" ++ sessionKey ++ "_" ++ toString st.schoolYear))
          st.blendedClassMap := by
        rw [processSessionGroup.eq_def, if_neg hle, if_pos hval]
      rw [hmap]
      exact alookup_foldl_aset_of_mem pyStr _ (group.map mtIdCell) st.blendedClassMap
        (mtIdCell r) (List.mem_map.mpr ⟨r, hr, rfl⟩)
    · have hteach : (processSessionGroup st workingRecords teacherIdCol fieldMap titleMap
          gradeMap sessionKey group).blendedTeacherMap = aset st.blendedTeacherMap
          ("BLENDED_" ++ sessionKey ++ "_" ++ toString st.schoolYear)
          (dedupBy id ((workingRecords.filter
            (fun r => (group.map mtIdCell).contains (mtIdCell r))).map
            (fun r => pyStr ((getCell r teacherIdCol).getD none)))) := by
        rw [processSessionGroup.eq_def, if_neg hle, if_pos hval]
      rw [hteach]
      exact (mem_akeys_aset _ _ _ _).mpr (Or.inr rfl)

/-- A two-row session group spanning grades 7 and 8. -/
def c2Row1 : Row := [("master timetable id", some "M1"), ("teacher id", some "T1")]

/-- Second member of the example session group. -/
def c2Row2 : Row := [("master timetable id", some "M2"), ("teacher id", some "T1")]

/-- Example `mtid_to_grade_map`. -/
def c2GradeMap : List (String × String) := [("M1", "7"), ("M2", "8")]

/-- Witness for C2 on a concrete two-row group spanning CEDS grades 07/08:
it validates as blended and its first member session id is mapped to the
synthetic blended id. -/
theorem C2_blended_group_detection_witness :
    validateBlendedClass [c2Row1, c2Row2] c2GradeMap = true ∧
    alookup (processSessionGroup (setSchoolYear initState 2025) [c2Row1, c2Row2]
        "teacher id" [] [] c2GradeMap "S1_T1" [c2Row1, c2Row2]).blendedClassMap
      (pyStr (mtIdCell c2Row1)) =
      some ("BLENDED_" ++ "S1_T1" ++ "_" ++
        toString (setSchoolYear initState 2025).schoolYear) := by
  have T := (C2_blended_group_detection (setSchoolYear initState 2025)
    [c2Row1, c2Row2] "teacher id" [] [] c2GradeMap "S1_T1"
    [c2Row1, c2Row2]).2.2 (by decide) (by decide)
  exact ⟨T.1, T.2.1 c2Row1 (by decide)⟩

/-! ## C10 — consistency of the three blended maps -/

/-- The three blended maps are mutually consistent: every value of the
session-id map is a key of both the teacher-roster map and the metadata
map, and those two maps have the same key set. -/
def BlendedMapsConsistent (st : TState) : Prop :=
  (∀ k bid, alookup st.blendedClassMap k = some bid →
    bid ∈ akeys st.blendedTeacherMap ∧ bid ∈ akeys st.blendedClassMetadata) ∧
  (∀ b, b ∈ akeys st.blendedTeacherMap ↔ b ∈ akeys st.blendedClassMetadata)

theorem initState_blendedMapsConsistent : BlendedMapsConsistent initState := by
  constructor
  · intro k bid hk
    simp [initState, alookup_nil] at hk
  · intro b
    simp [initState, akeys]

theorem processSessionGroup_consistent (st : TState) (workingRecords : List Row)
    (teacherIdCol : String) (fieldMap : List (String × Directive))
    (titleMap gradeMap : List (String × String)) (sessionKey : String)
    (group : List Row) (h : BlendedMapsConsistent st) :
    BlendedMapsConsistent (processSessionGroup st workingRecords teacherIdCol
      fieldMap titleMap gradeMap sessionKey group) := by
  rcases processSessionGroup_cases st workingRecords teacherIdCol fieldMap titleMap
      gradeMap sessionKey group with heq | ⟨roster, meta, heq⟩
  · rw [heq]; exact h
  · have h1 : (processSessionGroup st workingRecords teacherIdCol fieldMap titleMap
        gradeMap sessionKey group).blendedClassMap = (group.map mtIdCell).foldl
        (fun m c => aset m (pyStr c)
          ("BLENDED_" ++ sessionKey ++ "_" ++ toString st.schoolYear))
        st.blendedClassMap := by rw [heq]
    have h2 : (processSessionGroup st workingRecords teacherIdCol fieldMap titleMap
        gradeMap sessionKey group).blendedTeacherMap = aset st.blendedTeacherMap
        ("BLENDED_" ++ sessionKey ++ "_" ++ toString st.schoolYear) roster := by
      rw [heq]
    have h3 : (processSessionGroup st workingRecords teacherIdCol fieldMap titleMap
        gradeMap sessionKey group).blendedClassMetadata = aset st.blendedClassMetadata
        ("BLENDED_" ++ sessionKey ++ "_" ++ toString st.schoolYear) meta := by
      rw [heq]
    constructor
    · intro k bid hk
      rw [h1] at hk
      rw [h2, h3]
      rcases alookup_foldl_aset_cases pyStr _ (group.map mtIdCell)
        st.blendedClassMap k bid hk with hold | hbid
      · obtain ⟨ht, hm⟩ := h.1 k bid hold
        exact ⟨(mem_akeys_aset _ _ _ _).mpr (Or.inl ht),
          (mem_akeys_aset _ _ _ _).mpr (Or.inl hm)⟩
      · subst hbid
        exact ⟨(mem_akeys_aset _ _ _ _).mpr (Or.inr rfl),
          (mem_akeys_aset _ _ _ _).mpr (Or.inr rfl)⟩
    · intro b
      rw [h2, h3, mem_akeys_aset, mem_akeys_aset]
      exact or_congr_left (h.2 b)

theorem foldl_processSessionGroup_consistent (workingRecords : List Row)
    (teacherIdCol : String) (fieldMap : List (String × Directive))
    (titleMap gradeMap : List (String × String))
    (gs : List (String × List Row)) : ∀ (st : TState), BlendedMapsConsistent st →
    BlendedMapsConsistent (gs.foldl (fun st kg => processSessionGroup st
      workingRecords teacherIdCol fieldMap titleMap gradeMap kg.1 kg.2) st) := by
  induction gs with
  | nil => intro st h; exact h
  | cons g gs ih =>
    intro st h
    rw [List.foldl_cons]
    exact ih _ (processSessionGroup_consistent st workingRecords teacherIdCol
      fieldMap titleMap gradeMap g.1 g.2 h)

/-- C10: blended-class detection keeps the three blended maps mutually
consistent — every blended id occurring as a value of the session-id map is
a key of both the teacher-roster map and the metadata map, and those two
maps always carry the same key set.  (From the fresh per-run state the
invariant holds initially, `initState_blendedMapsConsistent`.) -/
theorem C10_blended_maps_consistent (st : TState) (classInfo : Table)
    (mapping : EntityMapping) (rawData : List (String × Table))
    (gc : GlobalConfig) (h : BlendedMapsConsistent st) :
    BlendedMapsConsistent (detectBlendedClasses st classInfo mapping rawData gc) := by
  rw [detectBlendedClasses]
  dsimp only
  split
  · exact h
  · split
    · exact h
    · split
      · exact h
      · exact foldl_processSessionGroup_consistent _ _ _ _ _ _ st h

/-- Witness for C10: the invariant holds after running detection from the
fresh state on a concrete non-trivial input (the two-session blended group
of the C2 example). -/
theorem C10_blended_maps_consistent_witness :
    BlendedMapsConsistent (detectBlendedClasses (setSchoolYear initState 2025)
      [c2Row1, c2Row2]
      ⟨[("student_schedule", "sch.csv"), ("course_info", "co.csv")], []⟩
      [("sch.csv", [[("master timetable id", some "M1"), ("grade", some "7")],
                    [("master timetable id", some "M2"), ("grade", some "8")]]),
       ("co.csv", [[("course code", some "C1"), ("title", some "Math")]])]
      ⟨[], []⟩) := by
  apply C10_blended_maps_consistent
  constructor
  · intro k bid hk
    simp [setSchoolYear, initState, alookup_nil] at hk
  · intro b
    simp [setSchoolYear, initState, akeys]

/-! ## C9 — enrollment uniqueness -/

theorem getCell_eq_alookup (r : Row) (c : String) : getCell r c = alookup r c := rfl

theorem getCell_renameRow_ne (r : Row) (a b c : String) (hca : c ≠ a)
    (hcb : c ≠ b) :
    getCell (r.map (fun p => if p.1 == a then (b, p.2) else p)) c = getCell r c := by
  rw [getCell_eq_alookup, getCell_eq_alookup]
  induction r with
  | nil => rfl
  | cons p rest ih =>
    rw [List.map_cons]
    by_cases hpa : p.1 = a
    · have hhead : (if p.1 == a then (b, p.2) else p) = (b, p.2) := by simp [hpa]
      rw [hhead, alookup_cons, alookup_cons]
      rw [if_neg (fun he : b = c => hcb he.symm), if_neg (fun he : p.1 = c => hca (hpa ▸ he).symm)]
      exact ih
    · have hhead : (if p.1 == a then (b, p.2) else p) = p := by simp [hpa]
      rw [hhead, alookup_cons, alookup_cons]
      by_cases hpc : p.1 = c
      · rw [if_pos hpc, if_pos hpc]
      · rw [if_neg hpc, if_neg hpc]
        exact ih

theorem enrollKey_renameRow (r : Row) :
    enrollKey (r.map (fun p => if p.1 == "school number" then ("School ID", p.2) else p)) =
      enrollKey r := by
  rw [enrollKey, enrollKey]
  rw [getCell_renameRow_ne r _ _ _ (by decide) (by decide),
    getCell_renameRow_ne r _ _ _ (by decide) (by decide),
    getCell_renameRow_ne r _ _ _ (by decide) (by decide)]

/-- The final dedup-and-rename step of the Enrollments pass yields pairwise
distinct `(Class ID, User ID, Role)` triples whatever rows were emitted. -/
theorem pairwise_enroll_finalize (rows : List Row) (st1 : TState) :
    ((if rows ≠ [] then
        (st1,
          if tableHasCol (dedupBy enrollKey (alignRows rows)) "school number" then
            renameCol (dedupBy enrollKey (alignRows rows)) "school number" "School ID"
          else dedupBy enrollKey (alignRows rows))
      else (st1, [])).2).Pairwise (fun r1 r2 => enrollKey r1 ≠ enrollKey r2) := by
  split
  · dsimp only
    split
    · rw [renameCol]
      refine List.pairwise_map.mpr ?_
      refine (pairwise_key_dedupBy enrollKey _).imp ?_
      intro a b hab
      rw [enrollKey_renameRow, enrollKey_renameRow]
      exact hab
    · exact pairwise_key_dedupBy enrollKey _
  · exact List.Pairwise.nil

/-- C9: in the final Enrollments output table no two rows carry the same
`(Class ID, User ID, Role)` triple, for every state, entity mapping, raw
dataset and global configuration. -/
theorem C9_enrollment_uniqueness (st : TState) (mapping : EntityMapping)
    (rawData : List (String × Table)) (gc : GlobalConfig) :
    ((enrollmentsTransform st mapping rawData gc).2).Pairwise
      (fun r1 r2 => enrollKey r1 ≠ enrollKey r2) := by
  rw [enrollmentsTransform]
  dsimp only
  split
  · exact List.Pairwise.nil
  · exact pairwise_enroll_finalize _ _

/-! ## C8 — per-field isolation in the generic loop -/

theorem akeys_any {α : Type _} (m : List (String × α)) (k : String) :
    (m.any (fun q => q.1 == k)) = true ↔ k ∈ akeys m := by
  rw [List.any_eq_true]
  constructor
  · rintro ⟨p, hp, hpk⟩
    exact List.mem_map.mpr ⟨p, hp, by simpa using hpk⟩
  · intro h
    rcases List.mem_map.mp h with ⟨p, hp, hpk⟩
    exact ⟨p, hp, by simpa using hpk⟩

theorem alookup_append_singleton_ne {α : Type _} (m : List (String × α))
    (k g : String) (v : α) (h : g ≠ k) :
    alookup (m ++ [(k, v)]) g = alookup m g := by
  rw [alookup_append]
  have : alookup [(k, v)] g = none := by
    rw [alookup_cons, if_neg (fun he => h he.symm)]
    rfl
  rw [this, Option.or_none]

theorem mem_akeys_append_singleton {α : Type _} (m : List (String × α))
    (k g : String) (v : α) : g ∈ akeys (m ++ [(k, v)]) ↔ g ∈ akeys m ∨ g = k := by
  simp [akeys]

theorem fieldMapLoop_preserves (st : TState) (working : Table) :
    ∀ (fm : List (String × Directive)) (init : List (String × List Cell))
      (f : String) (v : List Cell), alookup init f = some v →
    alookup (fieldMapLoop st working fm init) f = some v := by
  intro fm
  induction fm with
  | nil => intro init f v h; exact h
  | cons p fm' ih =>
    intro init f v h
    rw [fieldMapLoop, List.foldl_cons]
    apply ih
    rw [fieldStep]
    split
    · exact h
    · split
      · rw [alookup_append, h]
        rfl
      · rw [alookup_append, h]
        rfl

/-- The column stored for a field of the map: its evaluation when it is
reached with the field not yet populated and no duplicate keys. -/
theorem fieldMapLoop_lookup (st : TState) (working : Table) :
    ∀ (fm : List (String × Directive)) (init : List (String × List Cell))
      (f : String) (d : Directive), (f, d) ∈ fm → (akeys fm).Nodup →
      f ∉ akeys init →
    alookup (fieldMapLoop st working fm init) f =
      some (match evalFieldDirective st working f d with
            | .ok vals => vals
            | .error _ => List.replicate working.length none) := by
  intro fm
  induction fm with
  | nil => intro init f d h; simp at h
  | cons p fm' ih =>
    intro init f d hmem hnd hf0
    simp only [akeys, List.map_cons, List.nodup_cons] at hnd
    rw [fieldMapLoop, List.foldl_cons]
    rcases List.mem_cons.mp hmem with heq | hmem'
    · have hf : p.1 = f := by rw [← heq]
      have hd : p.2 = d := by rw [← heq]
      have hnotin : ¬ (init.any (fun q => q.1 == p.1)) = true := by
        rw [akeys_any, hf]
        exact hf0
      have hstep : fieldStep st working init p =
          init ++ [(f, (match evalFieldDirective st working f d with
            | .ok vals => vals
            | .error _ => List.replicate working.length none))] := by
        rw [fieldStep, if_neg hnotin, hf, hd]
        split <;> rfl
      rw [hstep]
      have hbase : alookup (init ++ [(f, (match evalFieldDirective st working f d with
          | .ok vals => vals
          | .error _ => List.replicate working.length none))]) f =
          some (match evalFieldDirective st working f d with
            | .ok vals => vals
            | .error _ => List.replicate working.length none) := by
        rw [alookup_append, alookup_eq_none_of_not_mem init f hf0]
        rw [alookup_cons, if_pos rfl]
        rfl
      exact fieldMapLoop_preserves st working fm' _ f _ hbase
    · have hfp : f ≠ p.1 := by
        intro he
        exact hnd.1 (he ▸ List.mem_map.mpr ⟨(f, d), hmem', rfl⟩)
      apply ih _ f d hmem' hnd.2
      rw [fieldStep]
      split
      · exact hf0
      · split
        · rw [mem_akeys_append_singleton]
          rintro (hc | hc)
          · exact hf0 hc
          · exact hfp hc
        · rw [mem_akeys_append_singleton]
          rintro (hc | hc)
          · exact hf0 hc
          · exact hfp hc

/-- Removing one field from the map leaves every other field's stored column
unchanged, whatever the removed field would have computed. -/
theorem fieldMapLoop_filter_ne (st : TState) (working : Table) (f : String) :
    ∀ (fm : List (String × Directive)) (init1 init2 : List (String × List Cell)),
      (∀ g, g ≠ f → alookup init1 g = alookup init2 g) →
      (∀ g, g ≠ f → (g ∈ akeys init1 ↔ g ∈ akeys init2)) →
      ∀ g, g ≠ f →
      alookup (fieldMapLoop st working fm init1) g =
        alookup (fieldMapLoop st working
          (fm.filter (fun p => decide (p.1 ≠ f))) init2) g := by
  intro fm
  induction fm with
  | nil => intro init1 init2 hR1 hR2 g hg; exact hR1 g hg
  | cons p fm' ih =>
    intro init1 init2 hR1 hR2 g hg
    by_cases hpf : p.1 = f
    · have hfilter : (p :: fm').filter (fun p => decide (p.1 ≠ f)) =
          fm'.filter (fun p => decide (p.1 ≠ f)) := by
        rw [List.filter_cons]
        simp [hpf]
      rw [hfilter, fieldMapLoop, List.foldl_cons]
      have hR1' : ∀ g, g ≠ f → alookup (fieldStep st working init1 p) g = alookup init2 g := by
        intro g hg
        rw [fieldStep]
        split
        · exact hR1 g hg
        · split
          · rw [alookup_append_singleton_ne _ _ _ _ (hpf ▸ hg)]
            exact hR1 g hg
          · rw [alookup_append_singleton_ne _ _ _ _ (hpf ▸ hg)]
            exact hR1 g hg
      have hR2' : ∀ g, g ≠ f → (g ∈ akeys (fieldStep st working init1 p) ↔ g ∈ akeys init2) := by
        intro g hg
        rw [fieldStep]
        split
        · exact hR2 g hg
        · split
          · rw [mem_akeys_append_singleton]
            constructor
            · rintro (hc | hc)
              · exact (hR2 g hg).mp hc
              · exact absurd (hc.trans hpf) hg
            · intro hc
              exact Or.inl ((hR2 g hg).mpr hc)
          · rw [mem_akeys_append_singleton]
            constructor
            · rintro (hc | hc)
              · exact (hR2 g hg).mp hc
              · exact absurd (hc.trans hpf) hg
            · intro hc
              exact Or.inl ((hR2 g hg).mpr hc)
      exact ih _ _ hR1' hR2' g hg
    · have hfilter : (p :: fm').filter (fun p => decide (p.1 ≠ f)) =
          p :: fm'.filter (fun p => decide (p.1 ≠ f)) := by
        rw [List.filter_cons]
        simp [hpf]
      rw [hfilter, fieldMapLoop, fieldMapLoop, List.foldl_cons, List.foldl_cons]
      have hdec : (init1.any (fun q => q.1 == p.1)) = (init2.any (fun q => q.1 == p.1)) := by
        by_cases h1 : (init1.any (fun q => q.1 == p.1)) = true
        · rw [h1, Eq.comm, akeys_any]
          exact (hR2 p.1 hpf).mp ((akeys_any _ _).mp h1)
        · have h2 : ¬ (init2.any (fun q => q.1 == p.1)) = true := by
            rw [akeys_any]
            intro hc
            exact h1 ((akeys_any _ _).mpr ((hR2 p.1 hpf).mpr hc))
          rw [Bool.not_eq_true] at h1 h2
          rw [h1, h2]
      have hR1' : ∀ g', g' ≠ f →
          alookup (fieldStep st working init1 p) g' = alookup (fieldStep st working init2 p) g' := by
        intro g' hg'
        rw [fieldStep, fieldStep, ← hdec]
        by_cases hskip : (init1.any (fun q => q.1 == p.1)) = true
        · rw [if_pos hskip, if_pos hskip]
          exact hR1 g' hg'
        · rw [if_neg hskip, if_neg hskip]
          have hnone1 : alookup init1 p.1 = none :=
            alookup_eq_none_of_not_mem init1 p.1 (fun hc => hskip ((akeys_any _ _).mpr hc))
          have hnone2 : alookup init2 p.1 = none :=
            alookup_eq_none_of_not_mem init2 p.1
              (fun hc => hskip ((akeys_any _ _).mpr ((hR2 p.1 hpf).mpr hc)))
          cases heval : evalFieldDirective st working p.1 p.2 with
          | ok vals =>
            simp only [heval]
            by_cases hgp : g' = p.1
            · rw [hgp, alookup_append, alookup_append, hnone1, hnone2]
            · rw [alookup_append_singleton_ne _ _ _ _ hgp,
                alookup_append_singleton_ne _ _ _ _ hgp]
              exact hR1 g' hg'
          | error e =>
            simp only [heval]
            by_cases hgp : g' = p.1
            · rw [hgp, alookup_append, alookup_append, hnone1, hnone2]
            · rw [alookup_append_singleton_ne _ _ _ _ hgp,
                alookup_append_singleton_ne _ _ _ _ hgp]
              exact hR1 g' hg'
      have hR2' : ∀ g', g' ≠ f →
          (g' ∈ akeys (fieldStep st working init1 p) ↔ g' ∈ akeys (fieldStep st working init2 p)) := by
        intro g' hg'
        rw [fieldStep, fieldStep, ← hdec]
        by_cases hskip : (init1.any (fun q => q.1 == p.1)) = true
        · rw [if_pos hskip, if_pos hskip]
          exact hR2 g' hg'
        · rw [if_neg hskip, if_neg hskip]
          cases heval : evalFieldDirective st working p.1 p.2 with
          | ok vals =>
            simp only [heval]
            rw [mem_akeys_append_singleton, mem_akeys_append_singleton]
            exact or_congr_left (hR2 g' hg')
          | error e =>
            simp only [heval]
            rw [mem_akeys_append_singleton, mem_akeys_append_singleton]
            exact or_congr_left (hR2 g' hg')
      exact ih _ _ hR1' hR2' g hg

/-- C8: in the generic field-mapping path, a column-copy directive whose
source column is absent from the working table stores an entirely-null
column without raising, and a field whose evaluation raises is caught and
null-filled in isolation — every other target field's stored column is
identical to what the loop stores when the failing field is absent from the
mapping. -/
theorem C8_generic_field_isolation (st : TState) (working : Table)
    (fieldMap : List (String × Directive)) (init : List (String × List Cell))
    (hnd : (akeys fieldMap).Nodup) :
    (∀ f d, (f, Directive.dict d) ∈ fieldMap → f ∉ akeys init →
      dHas d "value" = false → dGetBool d "use_academic_year" = false →
      dGetBool d "append_year_to_id" = false →
      tableHasCol working (pyLower ((dGetStr d "column").getD "")) = false →
      alookup (fieldMapLoop st working fieldMap init) f =
        some (List.replicate working.length none)) ∧
    (∀ f d, (f, d) ∈ fieldMap → f ∉ akeys init →
      evalFieldDirective st working f d = .error () →
      alookup (fieldMapLoop st working fieldMap init) f =
        some (List.replicate working.length none) ∧
      ∀ g, g ≠ f →
        alookup (fieldMapLoop st working fieldMap init) g =
        alookup (fieldMapLoop st working
          (fieldMap.filter (fun p => decide (p.1 ≠ f))) init) g) := by
  constructor
  · intro f d hmem hf0 hv hua hay hcol
    have heval : evalFieldDirective st working f (Directive.dict d) =
        .ok (List.replicate working.length none) := by
      rw [evalFieldDirective]
      rw [hv, hua, hay]
      simp only [Bool.false_eq_true, if_false]
      rw [hcol]
      simp
    have := fieldMapLoop_lookup st working fieldMap init f (Directive.dict d) hmem hnd hf0
    rw [heval] at this
    exact this
  · intro f d hmem hf0 herr
    constructor
    · have := fieldMapLoop_lookup st working fieldMap init f d hmem hnd hf0
      rw [herr] at this
      exact this
    · intro g hg
      exact fieldMapLoop_filter_ne st working f fieldMap init init
        (fun _ _ => rfl) (fun _ _ => Iff.rfl) g hg

/-- Working table for the C8 witness. -/
def c8Working : Table := [[("x", some "1")], [("x", some "2")]]

/-- Field map for the C8 witness: a missing-column field, a field whose
named transform does not exist (raises), and a healthy field. -/
def c8FieldMap : List (String × Directive) :=
  [("A", .dict [("column", .s "missing")]),
   ("B", .dict [("column", .s "x"), ("transform", .s "bogus")]),
   ("C", .dict [("column", .s "x")])]

/-- Witness for C8 on concrete data: the missing-column field and the
raising field are null-filled, and the healthy field's column is the same
with and without the raising field in the map. -/
theorem C8_generic_field_isolation_witness :
    alookup (fieldMapLoop initState c8Working c8FieldMap []) "A" =
      some (List.replicate c8Working.length none) ∧
    alookup (fieldMapLoop initState c8Working c8FieldMap []) "B" =
      some (List.replicate c8Working.length none) ∧
    alookup (fieldMapLoop initState c8Working c8FieldMap []) "C" =
      alookup (fieldMapLoop initState c8Working
        (c8FieldMap.filter (fun p => decide (p.1 ≠ "B"))) []) "C" := by
  have T := C8_generic_field_isolation initState c8Working c8FieldMap [] (by decide)
  have h2 := T.2 "B" (Directive.dict [("column", .s "x"), ("transform", .s "bogus")])
    (by decide) (by decide) (by rfl)
  exact ⟨T.1 "A" [("column", .s "missing")] (by decide) (by decide) (by decide)
      (by decide) (by decide) (by decide),
    h2.1, h2.2 "C" (by decide)⟩

/-! ## C4 — empty Classes result when the schedule is unavailable -/

/-- Global configuration of the C4 example: grade 02 is a homeroom grade. -/
def c4GC : GlobalConfig := ⟨["02"], []⟩

/-- A demographic table with one homeroom student. -/
def c4Demo : Table :=
  [[("school number", some "S1"), ("grade", some "2"), ("homeroom", some "R5"),
    ("teacher name", some "Ms T"), ("teacher id", some "T2")]]

/-- Classes mapping of the C4 example: the `student_schedule` role is not
configured, the demographic role is. -/
def c4Mapping : EntityMapping :=
  ⟨[("student_demographic", "demo.csv")], [("Class ID", .dict [])]⟩

/-- Raw data of the C4 example. -/
def c4Raw : List (String × Table) := [("demo.csv", c4Demo)]

/-- Counterexample to C4 as stated: with the `student_schedule` role
unresolved but a demographic table carrying one homeroom student, the
Classes pass returns a non-empty table (the synthesized homeroom class),
not an empty one. -/
theorem C4_counterexample_schedule_missing_nonempty :
    getSourceFile c4Raw c4Mapping.sourceFiles "student_schedule" = [] ∧
    (classesTransform (setSchoolYear initState 2025) c4Mapping c4Raw c4GC).2 =
      [[("Class ID", some "S1_R5_2025")]] := by
  constructor
  · rfl
  · decide

/-- C4 (amended): when the `student_schedule` role does not resolve to a
loaded non-empty table and the homeroom synthesis also contributes nothing
(the `student_demographic` role does not resolve either), the Classes
transformation returns an empty result table. -/
theorem C4_classes_empty_without_sources (st : TState) (mapping : EntityMapping)
    (rawData : List (String × Table)) (gc : GlobalConfig)
    (hs : getSourceFile rawData mapping.sourceFiles "student_schedule" = [])
    (hd : getSourceFile rawData mapping.sourceFiles "student_demographic" = []) :
    (classesTransform st mapping rawData gc).2 = [] := by
  have hhp : ∀ s : TState, homeroomPass s mapping rawData gc = (s, []) := by
    intro s
    rw [homeroomPass]
    simp [hd]
  rw [classesTransform]
  simp [hhp, hs]

/-- Witness for the amended C4: with no sources at all the Classes output is
empty. -/
theorem C4_classes_empty_without_sources_witness :
    (classesTransform (setSchoolYear initState 2025) ⟨[], []⟩ [] c4GC).2 = [] :=
  C4_classes_empty_without_sources (setSchoolYear initState 2025) ⟨[], []⟩ [] c4GC
    rfl rfl

/-! ## Row- and string-level lemmas shared by C5 and C1 -/

theorem dropWhile_eq_cons_head_false {p : Char → Bool} {l : List Char} {a : Char}
    {t : List Char} (h : l.dropWhile p = a :: t) : p a = false := by
  induction l with
  | nil => simp [List.dropWhile] at h
  | cons b bs ih =>
    rw [List.dropWhile_cons] at h
    by_cases hb : p b = true
    · rw [if_pos hb] at h
      exact ih h
    · rw [if_neg hb] at h
      cases h
      exact Bool.not_eq_true _ ▸ hb

theorem dropWhile_idem (p : Char → Bool) (l : List Char) :
    (l.dropWhile p).dropWhile p = l.dropWhile p := by
  cases hD : l.dropWhile p with
  | nil => rfl
  | cons a t =>
    have hpa : p a = false := dropWhile_eq_cons_head_false hD
    simp [List.dropWhile_cons, hpa]

theorem stripChars_idem (l : List Char) : stripChars (stripChars l) = stripChars l := by
  set m := l.dropWhile isPySpace with hmdef
  set d := m.reverse.dropWhile isPySpace with hddef
  have hstrip : stripChars l = d.reverse := rfl
  rw [hstrip]
  obtain ⟨t, ht⟩ := List.dropWhile_suffix (l := m.reverse) isPySpace
  have hu : m = d.reverse ++ t.reverse := by
    have h2 : m.reverse = t ++ d := ht.symm
    calc m = m.reverse.reverse := by rw [List.reverse_reverse]
    _ = (t ++ d).reverse := by rw [h2]
    _ = d.reverse ++ t.reverse := by rw [List.reverse_append]
  have hds : d.reverse.dropWhile isPySpace = d.reverse := by
    cases hsnil : d.reverse with
    | nil => rfl
    | cons a ts =>
      have hm' : m = a :: (ts ++ t.reverse) := by
        rw [hu, hsnil]
        rfl
      have hid : l.dropWhile isPySpace = a :: (ts ++ t.reverse) := by
        rw [← hmdef]
        exact hm'
      have hpa : isPySpace a = false := dropWhile_eq_cons_head_false hid
      simp [List.dropWhile_cons, hpa]
  have hdr : (d.reverse).reverse.dropWhile isPySpace = (d.reverse).reverse := by
    rw [List.reverse_reverse, hddef]
    exact dropWhile_idem isPySpace m.reverse
  rw [stripChars, hds, hdr, List.reverse_reverse]

theorem pyStrip_idem (s : String) : pyStrip (pyStrip s) = pyStrip s := by
  show (⟨stripChars (String.data ⟨stripChars s.data⟩)⟩ : String) = ⟨stripChars s.data⟩
  exact congrArg String.mk (stripChars_idem s.data)

theorem setCell_eq_aset (r : Row) (c : String) (v : Cell) :
    setCell r c v = aset r c v := rfl

theorem getCell_setCell_self (r : Row) (c : String) (v : Cell) :
    getCell (setCell r c v) c = some v := by
  rw [getCell_eq_alookup, setCell_eq_aset]
  exact alookup_aset_self r c v

theorem getCell_setCell_ne (r : Row) (c c' : String) (v : Cell) (h : c' ≠ c) :
    getCell (setCell r c v) c' = getCell r c' := by
  rw [getCell_eq_alookup, getCell_eq_alookup, setCell_eq_aset]
  exact alookup_aset_ne r c v c' h

theorem getCell_applyColRow_ne (r : Row) (c c' : String) (f : Cell → Cell)
    (h : c' ≠ c) : getCell (applyColRow r c f) c' = getCell r c' := by
  rw [getCell_eq_alookup, getCell_eq_alookup, applyColRow]
  induction r with
  | nil => rfl
  | cons p rest ih =>
    rw [List.map_cons]
    by_cases hpc : p.1 = c
    · have hhead : (if p.1 == c then (p.1, f p.2) else p) = (p.1, f p.2) := by
        simp [hpc]
      rw [hhead, alookup_cons, alookup_cons]
      have hne : ¬ (p.1 = c') := fun he => h (he ▸ hpc)
      rw [if_neg hne, if_neg hne]
      exact ih
    · have hhead : (if p.1 == c then (p.1, f p.2) else p) = p := by
        simp [hpc]
      rw [hhead, alookup_cons, alookup_cons]
      by_cases hpc' : p.1 = c'
      · rw [if_pos hpc', if_pos hpc']
      · rw [if_neg hpc', if_neg hpc']
        exact ih

theorem getCell_applyColRow_self (r : Row) (c : String) (f : Cell → Cell)
    (v : Cell) (h : getCell r c = some v) :
    getCell (applyColRow r c f) c = some (f v) := by
  rw [getCell_eq_alookup, applyColRow]
  rw [getCell_eq_alookup] at h
  induction r with
  | nil => simp [alookup_nil] at h
  | cons p rest ih =>
    rw [List.map_cons]
    by_cases hpc : p.1 = c
    · have hhead : (if p.1 == c then (p.1, f p.2) else p) = (p.1, f p.2) := by
        simp [hpc]
      rw [hhead, alookup_cons, if_pos hpc]
      rw [alookup_cons, if_pos hpc] at h
      simp only [Option.some.injEq] at h
      rw [h]
    · have hhead : (if p.1 == c then (p.1, f p.2) else p) = p := by
        simp [hpc]
      rw [hhead, alookup_cons, if_neg hpc]
      rw [alookup_cons, if_neg hpc] at h
      exact ih h

theorem getCell_applyColRow_none (r : Row) (c : String) (f : Cell → Cell)
    (h : getCell r c = none) : getCell (applyColRow r c f) c = none := by
  rw [getCell_eq_alookup, applyColRow]
  rw [getCell_eq_alookup] at h
  induction r with
  | nil => rfl
  | cons p rest ih =>
    rw [List.map_cons]
    by_cases hpc : p.1 = c
    · rw [alookup_cons, if_pos hpc] at h
      exact absurd h (by simp)
    · have hhead : (if p.1 == c then (p.1, f p.2) else p) = p := by
        simp [hpc]
      rw [hhead, alookup_cons, if_neg hpc]
      rw [alookup_cons, if_neg hpc] at h
      exact ih h

theorem names_applyColRow (r : Row) (c : String) (f : Cell → Cell) :
    (applyColRow r c f).map Prod.fst = r.map Prod.fst := by
  rw [applyColRow, List.map_map]
  apply List.map_congr_left
  intro p _
  by_cases hpc : p.1 = c <;> simp [hpc]

theorem mem_names_iff_getCell_isSome (r : Row) (c : String) :
    c ∈ r.map Prod.fst ↔ (getCell r c).isSome := by
  rw [getCell_eq_alookup]
  constructor
  · intro h
    rcases List.mem_map.mp h with ⟨p, hp, hpc⟩
    induction r with
    | nil => simp at hp
    | cons q rest ih =>
      rw [alookup_cons]
      by_cases hqc : q.1 = c
      · simp [hqc]
      · rw [if_neg hqc]
        rcases List.mem_cons.mp hp with heq | hmem
        · exact absurd (heq ▸ hpc) hqc
        · exact ih (List.mem_map.mpr ⟨p, hmem, hpc⟩) hmem
  · intro h
    cases ha : alookup r c with
    | none => rw [ha] at h; simp at h
    | some v => exact List.mem_map.mpr ⟨(c, v), mem_of_alookup_eq_some ha, rfl⟩

/-- A pandas frame: every row carries exactly the table's column list. -/
def UniformTable (t : Table) : Prop :=
  ∀ r ∈ t, r.map Prod.fst = colsOf t

theorem tableHasCol_iff_mem_colsOf (t : Table) (c : String) (hne : t ≠ []) :
    tableHasCol t c = true ↔ c ∈ colsOf t := by
  cases t with
  | nil => exact absurd rfl hne
  | cons r rest =>
    rw [tableHasCol, colsOf]
    rw [List.any_eq_true]
    constructor
    · rintro ⟨p, hp, hpc⟩
      exact List.mem_map.mpr ⟨p, hp, by simpa using hpc⟩
    · intro h
      rcases List.mem_map.mp h with ⟨p, hp, hpc⟩
      exact ⟨p, hp, by simpa using hpc⟩

theorem getCell_isSome_of_uniform {t : Table} (hU : UniformTable t) {r : Row}
    (hr : r ∈ t) {c : String} (hc : tableHasCol t c = true) :
    ∃ v, getCell r c = some v := by
  have hne : t ≠ [] := by
    intro he
    rw [he] at hr
    simp at hr
  have hcm : c ∈ colsOf t := (tableHasCol_iff_mem_colsOf t c hne).mp hc
  have : c ∈ r.map Prod.fst := (hU r hr) ▸ hcm
  have hsome := (mem_names_iff_getCell_isSome r c).mp this
  cases hg : getCell r c with
  | none => rw [hg] at hsome; simp at hsome
  | some v => exact ⟨v, rfl⟩

theorem map_eq_self_of_forall {α : Type _} (l : List α) (g : α → α)
    (h : ∀ x ∈ l, g x = x) : l.map g = l :=
  (List.map_congr_left h).trans (List.map_id l)

theorem uniform_map_names_preserved {t : Table} (f : Row → Row)
    (hf : ∀ r, (f r).map Prod.fst = r.map Prod.fst) (hU : UniformTable t) :
    UniformTable (t.map f) := by
  intro r' hr'
  rcases List.mem_map.mp hr' with ⟨r, hr, hfr⟩
  cases t with
  | nil => simp at hr
  | cons r0 rest =>
    have hcols : colsOf ((r0 :: rest).map f) = colsOf (r0 :: rest) := by
      rw [List.map_cons, colsOf, colsOf, hf r0]
    rw [hcols, ← hfr, hf r]
    exact hU r hr

theorem uniform_lowerCols {t : Table} (hU : UniformTable t) :
    UniformTable (lowerCols t) := by
  intro r' hr'
  rcases List.mem_map.mp hr' with ⟨r, hr, hfr⟩
  cases t with
  | nil => simp at hr
  | cons r0 rest =>
    have hnames : ∀ q : Row,
        (q.map (fun p => (pyLower (pyStrip p.1), p.2))).map Prod.fst =
          (q.map Prod.fst).map (fun c => pyLower (pyStrip c)) := by
      intro q
      rw [List.map_map, List.map_map]
      rfl
    have hcols : colsOf (lowerCols (r0 :: rest)) =
        (colsOf (r0 :: rest)).map (fun c => pyLower (pyStrip c)) := by
      rw [lowerCols, List.map_cons, colsOf, colsOf]
      exact hnames r0
    rw [hcols, ← hfr, hnames r, hU r hr]

theorem uniform_stripStrCol {t : Table} (c : String) (hU : UniformTable t) :
    UniformTable (stripStrCol t c) := by
  rw [stripStrCol]
  split
  · exact uniform_map_names_preserved _ (fun r => names_applyColRow r c _) hU
  · exact hU

theorem uniform_applyCedsCol {t : Table} (c : String) (hU : UniformTable t) :
    UniformTable (applyCedsCol t c) := by
  rw [applyCedsCol]
  split
  · exact uniform_map_names_preserved _ (fun r => names_applyColRow r c _) hU
  · exact hU

theorem tableHasCol_cons_iff (r : Row) (rest : List Row) (c : String) :
    tableHasCol (r :: rest) c = true ↔ c ∈ r.map Prod.fst := by
  rw [tableHasCol]
  exact akeys_any r c

theorem mem_names_setCell (r : Row) (c : String) (v : Cell) (c' : String) :
    c' ∈ (setCell r c v).map Prod.fst ↔ c' ∈ r.map Prod.fst ∨ c' = c := by
  rw [setCell_eq_aset]
  exact mem_akeys_aset r c v c'

/-- A cell is strip-normal when re-casting it through `astype(str).str.strip()`
is the identity. -/
def stripNormalCell (v : Cell) : Prop :=
  v = some (pyStrip (pyStr v))

theorem stripNormal_strip (w : Cell) : stripNormalCell (some (pyStrip (pyStr w))) := by
  rw [stripNormalCell]
  rw [show pyStr (some (pyStrip (pyStr w))) = pyStrip (pyStr w) from rfl, pyStrip_idem]

theorem getCell_mkHomeroomClassRow_teacher (st : TState)
    (fm : List (String × Directive)) (gradeCol homeroomCol : String) (r : Row) :
    getCell (mkHomeroomClassRow st fm gradeCol homeroomCol r) "teacher id" =
      getCell r "teacher id" := by
  rw [mkHomeroomClassRow]
  rw [getCell_setCell_ne _ _ _ _ (by decide), getCell_setCell_ne _ _ _ _ (by decide),
    getCell_setCell_ne _ _ _ _ (by decide), getCell_setCell_ne _ _ _ _ (by decide),
    getCell_setCell_ne _ _ _ _ (by decide), getCell_setCell_ne _ _ _ _ (by decide)]

theorem teacher_mem_names_mkHomeroomClassRow (st : TState)
    (fm : List (String × Directive)) (gradeCol homeroomCol : String) (r : Row) :
    "teacher id" ∈ (mkHomeroomClassRow st fm gradeCol homeroomCol r).map Prod.fst ↔
      "teacher id" ∈ r.map Prod.fst := by
  rw [mkHomeroomClassRow]
  rw [mem_names_setCell, mem_names_setCell, mem_names_setCell, mem_names_setCell,
    mem_names_setCell, mem_names_setCell]
  simp

/-- On a uniform demographic table, the teacher-id cells surviving the
Enrollments-pass preprocessing (`lowerCols`, teacher strip, grade
normalization) are strip-normal wherever present. -/
theorem demoPrep_teacher_stripNormal (demo0 : Table)
    (hU : UniformTable (lowerCols demo0)) :
    ∀ r ∈ applyCedsCol (stripStrCol (lowerCols demo0) "teacher id") "grade",
      ∀ v, getCell r "teacher id" = some v → stripNormalCell v := by
  intro r hr v hv
  have hmain : ∀ r1 ∈ stripStrCol (lowerCols demo0) "teacher id",
      ∀ v1, getCell r1 "teacher id" = some v1 → stripNormalCell v1 := by
    intro r1 hr1 v1 hv1
    rw [stripStrCol] at hr1
    by_cases hcol : tableHasCol (lowerCols demo0) "teacher id" = true
    · rw [if_pos hcol] at hr1
      rcases List.mem_map.mp hr1 with ⟨rb, hrb, hfr⟩
      cases hg : getCell rb "teacher id" with
      | none =>
        rw [← hfr, getCell_applyColRow_none rb _ _ hg] at hv1
        exact absurd hv1 (by simp)
      | some w =>
        rw [← hfr, getCell_applyColRow_self rb _ _ w hg] at hv1
        simp only [Option.some.injEq] at hv1
        rw [← hv1]
        exact stripNormal_strip w
    · rw [if_neg hcol] at hr1
      have hne : lowerCols demo0 ≠ [] := by
        intro he
        rw [he] at hr1
        simp at hr1
      have hmem : "teacher id" ∈ r1.map Prod.fst :=
        (mem_names_iff_getCell_isSome r1 "teacher id").mpr (by rw [hv1]; rfl)
      rw [hU r1 hr1] at hmem
      exact absurd ((tableHasCol_iff_mem_colsOf _ _ hne).mpr hmem) hcol
  rw [applyCedsCol] at hr
  by_cases hgcol : tableHasCol (stripStrCol (lowerCols demo0) "teacher id") "grade" = true
  · rw [if_pos hgcol] at hr
    rcases List.mem_map.mp hr with ⟨r1, hr1, hfr⟩
    rw [← hfr, getCell_applyColRow_ne _ _ _ _ (by decide)] at hv
    exact hmain r1 hr1 v hv
  · rw [if_neg hgcol] at hr
    exact hmain r hr v hv

theorem homeroomPass_fst_cases (st : TState) (mapping : EntityMapping)
    (rawData : List (String × Table)) (gc : GlobalConfig) :
    (homeroomPass st mapping rawData gc).1 = st ∨
    ∃ uniq : List Row, uniq ≠ [] ∧
      (∀ r ∈ uniq, r ∈ applyCedsCol (stripStrCol (lowerCols
          (getSourceFile rawData mapping.sourceFiles "student_demographic"))
          (teacherIdColOfGC gc)) (gradeColOfGC gc)) ∧
      (homeroomPass st mapping rawData gc).1 = { st with homeroomClassesDf :=
        ((uniq.map (mkHomeroomClassRow st mapping.fieldMap (gradeColOfGC gc)
            (homeroomColOfGC gc))).map
          (homeroomIdxRow (teacherIdColOfGC gc) (homeroomColOfGC gc)
            (tableHasCol (uniq.map (mkHomeroomClassRow st mapping.fieldMap
              (gradeColOfGC gc) (homeroomColOfGC gc))) (teacherIdColOfGC gc)))) } := by
  rw [homeroomPass]
  dsimp only
  split
  · left
    rfl
  · split
    · left
      rfl
    · split
      · right
        rename_i hguard
        exact ⟨_, hguard.1, fun r hr =>
          List.mem_of_mem_filter (mem_of_mem_dedupBy hr), rfl⟩
      · left
        rfl

/-- The HomeroomIndex built by the Classes homeroom pass is a fixed point
of the Enrollments-side restrip, under the canonical column configuration
and a uniform demographic frame. -/
theorem homeroomPass_restrip_fixed (st : TState) (mapping : EntityMapping)
    (rawData : List (String × Table)) (gc : GlobalConfig)
    (ht : teacherIdColOfGC gc = "teacher id")
    (hg : gradeColOfGC gc = "grade")
    (hh : homeroomColOfGC gc = "homeroom")
    (hU : UniformTable (getSourceFile rawData mapping.sourceFiles "student_demographic")) :
    (homeroomPass st mapping rawData gc).1.homeroomClassesDf = st.homeroomClassesDf ∨
    restripHomeroomIdx ((homeroomPass st mapping rawData gc).1.homeroomClassesDf)
      "teacher id" = (homeroomPass st mapping rawData gc).1.homeroomClassesDf := by
  rcases homeroomPass_fst_cases st mapping rawData gc with hcase | ⟨uniq, hne, hmem, hcase⟩
  · left
    rw [hcase]
  · right
    rw [hcase]
    dsimp only
    rw [ht, hg] at hmem
    rw [ht, hg, hh]
    set demo0 := getSourceFile rawData mapping.sourceFiles "student_demographic" with hd0
    set d2 := applyCedsCol (stripStrCol (lowerCols demo0) "teacher id") "grade" with hd2
    set mk := mkHomeroomClassRow st mapping.fieldMap "grade" "homeroom" with hmk
    obtain ⟨u0, urest, hueq⟩ := List.exists_cons_of_ne_nil hne
    subst hueq
    by_cases hT : tableHasCol ((u0 :: urest).map mk) "teacher id" = true
    · rw [hT]
      -- presence of the teacher column on every selected row
      have hU2 : UniformTable d2 :=
        uniform_applyCedsCol _ (uniform_stripStrCol _ (uniform_lowerCols hU))
      have hmem0 : "teacher id" ∈ colsOf d2 := by
        rw [List.map_cons, tableHasCol_cons_iff] at hT
        rw [teacher_mem_names_mkHomeroomClassRow] at hT
        rw [← hU2 u0 (hmem u0 (List.mem_cons_self _ _))]
        exact hT
      have hpres : ∀ r ∈ u0 :: urest, ∃ w, getCell r "teacher id" = some w := by
        intro r hr
        have hn : "teacher id" ∈ r.map Prod.fst := by
          rw [hU2 r (hmem r hr)]
          exact hmem0
        have hsome := (mem_names_iff_getCell_isSome r "teacher id").mp hn
        cases hgc : getCell r "teacher id" with
        | none => rw [hgc] at hsome; simp at hsome
        | some w => exact ⟨w, rfl⟩
      have hnormal := demoPrep_teacher_stripNormal demo0 (uniform_lowerCols hU)
      -- the restrip is the identity on every index row
      rw [restripHomeroomIdx]
      have hhascol : tableHasCol
          (((u0 :: urest).map mk).map (homeroomIdxRow "teacher id" "homeroom" true))
          "teacher id" = true := by
        rw [List.map_cons, List.map_cons, tableHasCol_cons_iff]
        simp [homeroomIdxRow]
      rw [if_pos hhascol]
      apply map_eq_self_of_forall
      intro row hrow
      rcases List.mem_map.mp hrow with ⟨rc, hrc, hrceq⟩
      rcases List.mem_map.mp hrc with ⟨r, hr, hrceq2⟩
      obtain ⟨w, hw⟩ := hpres r hr
      have hvw : (getCell rc "teacher id").getD none = w := by
        rw [← hrceq2, hmk, getCell_mkHomeroomClassRow_teacher, hw]
        rfl
      have hwn : stripNormalCell w := hnormal r (hmem r hr) w hw
      rw [← hrceq]
      rw [homeroomIdxRow, if_pos rfl]
      rw [applyColRow]
      simp only [List.map_append, List.map_cons, List.map_nil]
      rw [hvw]
      have e1 : (("school number" : String) == "teacher id") = false := by decide
      have e2 : (("homeroom" : String) == "teacher id") = false := by decide
      have e3 : (("Class ID" : String) == "teacher id") = false := by decide
      simp only [e1, e2, e3, if_false, beq_self_eq_true, if_true]
      rw [stripNormalCell] at hwn
      rw [← hwn]
      simp
    · rw [Bool.not_eq_true] at hT
      rw [hT]
      rw [restripHomeroomIdx]
      have hnocol : tableHasCol
          (((u0 :: urest).map mk).map (homeroomIdxRow "teacher id" "homeroom" false))
          "teacher id" = false := by
        rw [List.map_cons, List.map_cons]
        rw [Bool.eq_false_iff]
        intro hc
        rw [tableHasCol_cons_iff] at hc
        simp [homeroomIdxRow] at hc
      rw [hnocol]
      simp

/-! ## C5 — the HomeroomIndex and BlendedIndex after the Enrollments pass -/

/-- Blended detection writes only the three blended maps: one group step
leaves the HomeroomIndex untouched. -/
theorem processSessionGroup_homeroomClassesDf (st : TState)
    (workingRecords : List Row) (teacherIdCol : String)
    (fieldMap : List (String × Directive))
    (titleMap gradeMap : List (String × String))
    (sessionKey : String) (group : List Row) :
    (processSessionGroup st workingRecords teacherIdCol fieldMap titleMap
      gradeMap sessionKey group).homeroomClassesDf = st.homeroomClassesDf := by
  rw [processSessionGroup.eq_def]
  dsimp only
  split
  · rfl
  · split
    · rfl
    · rfl

theorem foldl_processSessionGroup_homeroomClassesDf (workingRecords : List Row)
    (teacherIdCol : String) (fieldMap : List (String × Directive))
    (titleMap gradeMap : List (String × String))
    (gs : List (String × List Row)) : ∀ st : TState,
    (gs.foldl (fun st kg => processSessionGroup st workingRecords teacherIdCol
      fieldMap titleMap gradeMap kg.1 kg.2) st).homeroomClassesDf =
      st.homeroomClassesDf := by
  induction gs with
  | nil => intro st; rfl
  | cons g gs ih =>
    intro st
    rw [List.foldl_cons, ih, processSessionGroup_homeroomClassesDf]

/-- `_detect_blended_classes` never touches the HomeroomIndex. -/
theorem detectBlendedClasses_homeroomClassesDf (st : TState) (classInfo : Table)
    (mapping : EntityMapping) (rawData : List (String × Table))
    (gc : GlobalConfig) :
    (detectBlendedClasses st classInfo mapping rawData gc).homeroomClassesDf =
      st.homeroomClassesDf := by
  rw [detectBlendedClasses.eq_def]
  dsimp only
  repeat' split
  all_goals
    first
    | rfl
    | exact foldl_processSessionGroup_homeroomClassesDf _ _ _ _ _ _ st

/-- The homeroom merge of the Enrollments pass returns the restripped
HomeroomIndex in every branch: the in-place `astype(str).str.strip()` on
the staff-id column has already happened when any later `KeyError` is
raised and caught. -/
theorem homeroomEnrollPart_fst (st : TState) (gc : GlobalConfig)
    (homeroomStudents : Table) (studentIdCol staffIdCol : String) :
    (homeroomEnrollPart st gc homeroomStudents studentIdCol staffIdCol).1 =
      restripHomeroomIdx st.homeroomClassesDf staffIdCol := by
  rw [homeroomEnrollPart]
  dsimp only
  repeat' split
  all_goals rfl

theorem enrollHomeroomStep_fst_cases (st0 : TState) (gc : GlobalConfig)
    (demo1 : Table) (studentIdCol staffIdCol : String) :
    (enrollHomeroomStep st0 gc demo1 studentIdCol staffIdCol).1 = st0 ∨
    (enrollHomeroomStep st0 gc demo1 studentIdCol staffIdCol).1 =
      { st0 with homeroomClassesDf :=
          restripHomeroomIdx st0.homeroomClassesDf staffIdCol } := by
  rw [enrollHomeroomStep]
  dsimp only
  split
  · split
    · right
      rw [homeroomEnrollPart_fst]
    · left
      rfl
  · left
    rfl

/-- The state side of the Enrollments pass: it is either untouched or the
HomeroomIndex has been restripped at the configured staff-id column. -/
theorem enrollmentsTransform_fst_cases (st0 : TState) (mapping : EntityMapping)
    (rawData : List (String × Table)) (gc : GlobalConfig) :
    (enrollmentsTransform st0 mapping rawData gc).1 = st0 ∨
    (enrollmentsTransform st0 mapping rawData gc).1 =
      { st0 with homeroomClassesDf :=
          (restripHomeroomIdx st0.homeroomClassesDf
            (staffIdColOf mapping.fieldMap)) } := by
  rw [enrollmentsTransform]
  dsimp only
  split
  · left
    rfl
  · repeat' split
    all_goals exact enrollHomeroomStep_fst_cases st0 gc _ _ _

/-- The state returned by the Classes pass is the homeroom-pass state over
the post-detection state. -/
theorem classesTransform_fst (st0 : TState) (mapping : EntityMapping)
    (rawData : List (String × Table)) (gc : GlobalConfig) :
    (classesTransform st0 mapping rawData gc).1 =
      (homeroomPass
        (if getSourceFile rawData mapping.sourceFiles "class_info" ≠ [] then
          detectBlendedClasses st0
            (stripStrCol (stripStrCol (lowerCols
              (getSourceFile rawData mapping.sourceFiles "class_info"))
              (teacherIdColOfGC gc)) "master timetable id") mapping rawData gc
        else st0) mapping rawData gc).1 := by
  rw [classesTransform]
  dsimp only
  repeat' split
  all_goals rfl

/-- Starting from an empty HomeroomIndex and the canonical column
configuration, the index produced by the homeroom pass is a fixed point of
the Enrollments-side restrip. -/
theorem homeroomPass_restrip_of_nil (st : TState) (mapping : EntityMapping)
    (rawData : List (String × Table)) (gc : GlobalConfig)
    (ht : teacherIdColOfGC gc = "teacher id")
    (hg : gradeColOfGC gc = "grade")
    (hh : homeroomColOfGC gc = "homeroom")
    (hU : UniformTable (getSourceFile rawData mapping.sourceFiles "student_demographic"))
    (h0 : st.homeroomClassesDf = []) :
    restripHomeroomIdx ((homeroomPass st mapping rawData gc).1.homeroomClassesDf)
      "teacher id" = (homeroomPass st mapping rawData gc).1.homeroomClassesDf := by
  rcases homeroomPass_restrip_fixed st mapping rawData gc ht hg hh hU with h | h
  · rw [h, h0]
    decide
  · exact h

/-- As `homeroomPass_restrip_of_nil`, for the whole Classes pass. -/
theorem classesTransform_homeroom_restrip (st0 : TState) (mapping : EntityMapping)
    (rawData : List (String × Table)) (gc : GlobalConfig)
    (ht : teacherIdColOfGC gc = "teacher id")
    (hg : gradeColOfGC gc = "grade")
    (hh : homeroomColOfGC gc = "homeroom")
    (hU : UniformTable (getSourceFile rawData mapping.sourceFiles "student_demographic"))
    (h0 : st0.homeroomClassesDf = []) :
    restripHomeroomIdx
      ((classesTransform st0 mapping rawData gc).1.homeroomClassesDf)
      "teacher id" =
      (classesTransform st0 mapping rawData gc).1.homeroomClassesDf := by
  rw [classesTransform_fst]
  apply homeroomPass_restrip_of_nil _ _ _ _ ht hg hh hU
  split
  · rw [detectBlendedClasses_homeroomClassesDf]
    exact h0
  · exact h0

/-- C5 (amended): the three blended maps are written only during the Classes
pass and the Enrollments pass leaves them unchanged; the HomeroomIndex is
also preserved provided the Enrollments `staff_id_col` is the canonical
`teacher id` (the column the Classes pass already stripped), the grade and
homeroom columns are canonical, the demographic frame is uniform, and the
run starts from an empty index.  Under these hypotheses the transformer
state after the Enrollments pass equals the state at the end of the Classes
pass. -/
theorem C5_indices_frozen (st0 : TState) (cm em : EntityMapping)
    (rawData : List (String × Table)) (gc : GlobalConfig)
    (ht : teacherIdColOfGC gc = "teacher id")
    (hg : gradeColOfGC gc = "grade")
    (hh : homeroomColOfGC gc = "homeroom")
    (hstaff : staffIdColOf em.fieldMap = "teacher id")
    (hU : UniformTable (getSourceFile rawData cm.sourceFiles "student_demographic"))
    (h0 : st0.homeroomClassesDf = []) :
    (enrollmentsTransform (classesTransform st0 cm rawData gc).1 em rawData gc).1 =
      (classesTransform st0 cm rawData gc).1 := by
  rcases enrollmentsTransform_fst_cases (classesTransform st0 cm rawData gc).1
      em rawData gc with h | h
  · exact h
  · rw [h, hstaff,
      classesTransform_homeroom_restrip st0 cm rawData gc ht hg hh hU h0]

/-- Global configuration of the C5 counterexample. -/
def c5GC : GlobalConfig := ⟨["02"], []⟩

/-- Demographic table of the C5 counterexample: the school number carries a
stray leading space, copied verbatim into the HomeroomIndex by the Classes
pass (which strips only the teacher-id column). -/
def c5Demo : Table :=
  [[("school number", some " S1"), ("grade", some "2"), ("homeroom", some "R5"),
    ("teacher name", some "Ms T"), ("teacher id", some "T2")]]

/-- A one-row schedule so the Enrollments pass does not return early. -/
def c5Sched : Table := [[("grade", some "9"), ("student number", some "P1")]]

/-- Raw tables of the C5 counterexample. -/
def c5Raw : List (String × Table) := [("demo.csv", c5Demo), ("sched.csv", c5Sched)]

/-- Classes mapping of the C5 counterexample. -/
def c5CM : EntityMapping :=
  ⟨[("student_demographic", "demo.csv")], [("Class ID", .dict [])]⟩

/-- Enrollments mapping of the C5 counterexample: `staff_id_col` is
configured as `school number`. -/
def c5EM : EntityMapping :=
  ⟨[("student_demographic", "demo.csv"), ("student_schedule", "sched.csv")],
   [("User ID", .dict [("staff_id_col", .s "school number")])]⟩

/-- The transformer state at the end of the C5 Classes pass. -/
def c5St1 : TState :=
  (classesTransform (setSchoolYear initState 2025) c5CM c5Raw c5GC).1

/-- Witness Enrollments mapping for the amended C5: the default (canonical)
`staff_id_col`. -/
def c5wEM : EntityMapping :=
  ⟨[("student_demographic", "demo.csv"), ("student_schedule", "sched.csv")], []⟩

theorem C5_indices_frozen_witness :
    (enrollmentsTransform
        (classesTransform (setSchoolYear initState 2025) c5CM c5Raw c5GC).1
        c5wEM c5Raw c5GC).1 =
      (classesTransform (setSchoolYear initState 2025) c5CM c5Raw c5GC).1 :=
  C5_indices_frozen (setSchoolYear initState 2025) c5CM c5wEM c5Raw c5GC
    (by decide) (by decide) (by decide) (by decide)
    (by
      intro r hr
      cases hr with
      | head => decide
      | tail _ h => cases h)
    rfl

/-- Counterexample to C5 as stated: the Enrollments pass re-casts the
`staff_id_col` column of the stored HomeroomIndex through
`astype(str).str.strip()` in place (transformer.py lines 639–640).  With
`staff_id_col = "school number"` and the stray space above, the index after
the Enrollments pass differs from the index left by the Classes pass. -/
theorem C5_counterexample_restrip_mutates_index :
    (enrollmentsTransform c5St1 c5EM c5Raw c5GC).1.homeroomClassesDf ≠
      c5St1.homeroomClassesDf := by
  decide

/-! ## C3 — one teacher row per blended roster member -/

theorem mem_dedupBy_id {α : Type _} [DecidableEq α] (l : List α) (x : α)
    (h : x ∈ l) : x ∈ dedupBy id l := by
  have hmm := (mem_map_key_dedupBy id l x).mpr (by simpa using h)
  simpa using hmm

/-- Lookup in a row synthesized over a column list. -/
theorem getCell_map_over_cols (cols : List String) (f : String → Cell)
    (c : String) (h : c ∈ cols) :
    getCell (cols.map (fun c => (c, f c))) c = some (f c) := by
  induction cols with
  | nil => cases h
  | cons a rest ih =>
    rw [List.map_cons]
    by_cases hac : a = c
    · subst hac
      rw [getCell_eq_alookup, alookup_cons, if_pos rfl]
    · rw [getCell_eq_alookup, alookup_cons, if_neg hac, ← getCell_eq_alookup]
      exact ih (by rcases List.mem_cons.mp h with h1 | h1
                   · exact absurd h1.symm hac
                   · exact h1)

/-- Aligning a row to a column set containing the three key columns
preserves its `(Class ID, User ID, Role)` key. -/
theorem enrollKey_align (cols : List String) (r : Row)
    (h1 : "Class ID" ∈ cols) (h2 : "User ID" ∈ cols) (h3 : "Role" ∈ cols) :
    enrollKey (cols.map (fun c => (c, (getCell r c).getD none))) = enrollKey r := by
  rw [enrollKey, enrollKey]
  rw [getCell_map_over_cols cols _ _ h1, getCell_map_over_cols cols _ _ h2,
    getCell_map_over_cols cols _ _ h3]
  rfl

/-- A row of the emitted list carrying the three key columns keeps its key
through the `pd.concat` alignment. -/
theorem enrollKey_mem_map_alignRows (rows : List Row) (r0 : Row)
    (h0 : r0 ∈ rows)
    (h1 : "Class ID" ∈ r0.map Prod.fst) (h2 : "User ID" ∈ r0.map Prod.fst)
    (h3 : "Role" ∈ r0.map Prod.fst) :
    enrollKey r0 ∈ (alignRows rows).map enrollKey := by
  rw [alignRows]
  rw [List.map_map]
  refine List.mem_map.mpr ⟨r0, h0, ?_⟩
  have hm : ∀ c, c ∈ r0.map Prod.fst →
      c ∈ dedupBy id (rows.flatMap (List.map Prod.fst)) := by
    intro c hc
    exact mem_dedupBy_id _ c (List.mem_flatMap.mpr ⟨r0, h0, hc⟩)
  exact enrollKey_align _ r0 (hm _ h1) (hm _ h2) (hm _ h3)

/-- The dedup-and-rename step emits exactly one row per key that occurs
among the emitted rows on a row carrying the three key columns. -/
theorem countP_enroll_finalize (rows : List Row) (st1 : TState)
    (k : Cell × Cell × Cell) (r0 : Row) (h0 : r0 ∈ rows)
    (hk : enrollKey r0 = k)
    (h1 : "Class ID" ∈ r0.map Prod.fst) (h2 : "User ID" ∈ r0.map Prod.fst)
    (h3 : "Role" ∈ r0.map Prod.fst) :
    ((if rows ≠ [] then
        (st1,
          if tableHasCol (dedupBy enrollKey (alignRows rows)) "school number" then
            renameCol (dedupBy enrollKey (alignRows rows)) "school number" "School ID"
          else dedupBy enrollKey (alignRows rows))
      else (st1, [])).2).countP (fun r => decide (enrollKey r = k)) = 1 := by
  have hmem : k ∈ (alignRows rows).map enrollKey := by
    rw [← hk]
    exact enrollKey_mem_map_alignRows rows r0 h0 h1 h2 h3
  have hcount := countP_dedupBy_eq_one enrollKey (alignRows rows) k hmem
  split
  · dsimp only
    split
    · rw [renameCol, List.countP_map]
      have hfun : ((fun r => decide (enrollKey r = k)) ∘
          (List.map (fun p => if p.1 == "school number" then ("School ID", p.2) else p))) =
          (fun r => decide (enrollKey r = k)) := by
        funext r
        simp only [Function.comp_apply, enrollKey_renameRow]
      rw [hfun]
      exact hcount
    · exact hcount
  · rename_i hne
    rw [Ne, not_not] at hne
    rw [hne] at h0
    cases h0

/-- The per-roster teacher row the blended branch of the subject part emits
for class `bid` and teacher `t`. -/
def blendedTeacherRow (st : TState) (bid t : String) : Row :=
  [("Class ID", (some bid : Cell)), ("User ID", (some t : Cell)),
   ("Role", (some "teacher" : Cell)),
   ("school number", (some (match alookup st.blendedClassMetadata bid with
     | some meta => meta.schoolId
     | none => "") : Cell))]

/-- When the non-homeroom schedule is non-empty, the subject part emits the
roster teacher row of every teacher of every class of the teacher-roster
map. -/
theorem blendedTeacherRow_mem_subjectEnrollPart (st : TState)
    (fieldMap : List (String × Directive)) (nonHomeroom : Table)
    (studentIdCol staffIdCol : String) (bid t : String) (roster : List String)
    (hnh : nonHomeroom ≠ [])
    (hb : alookup st.blendedTeacherMap bid = some roster) (ht : t ∈ roster) :
    blendedTeacherRow st bid t ∈
      subjectEnrollPart st fieldMap nonHomeroom studentIdCol staffIdCol := by
  rw [subjectEnrollPart]
  dsimp only
  rw [if_neg hnh]
  refine List.mem_append.mpr (Or.inl (List.mem_append.mpr (Or.inr ?_)))
  refine mem_dedupBy_id _ _ ?_
  refine List.mem_flatMap.mpr ⟨(bid, roster), mem_of_alookup_eq_some hb, ?_⟩
  exact List.mem_map.mpr ⟨t, ht, rfl⟩

/-- The homeroom step of the Enrollments pass leaves the teacher-roster map
unchanged. -/
theorem enrollHomeroomStep_blendedTeacherMap (st0 : TState) (gc : GlobalConfig)
    (demo1 : Table) (studentIdCol staffIdCol : String) :
    ((enrollHomeroomStep st0 gc demo1 studentIdCol staffIdCol).1).blendedTeacherMap =
      st0.blendedTeacherMap := by
  rcases enrollHomeroomStep_fst_cases st0 gc demo1 studentIdCol staffIdCol with h | h <;>
    rw [h]

/-- C3: for every class of the teacher-roster map built during the Classes
pass and every distinct teacher id in its precomputed roster, the
Enrollments output contains exactly one `teacher`-role row with that class
id and that user id, whatever the schedule rows referencing the class —
provided the non-homeroom schedule is non-empty (otherwise the blended
branch is skipped, or the pass returns the empty table). -/
theorem C3_blended_teacher_once (st : TState) (mapping : EntityMapping)
    (rawData : List (String × Table)) (gc : GlobalConfig)
    (bid t : String) (roster : List String)
    (hb : alookup st.blendedTeacherMap bid = some roster)
    (ht : t ∈ roster)
    (hnh : nonHomeroomOf gc (enrollSchedulePrep
        (getSourceFile rawData mapping.sourceFiles "student_schedule")
        (staffIdColOf mapping.fieldMap)) ≠ []) :
    ((enrollmentsTransform st mapping rawData gc).2).countP
      (fun r => decide (enrollKey r = ((some bid : Cell), (some t : Cell),
        (some "teacher" : Cell)))) = 1 := by
  have hb1 : ∀ demo1 : Table,
      alookup ((enrollHomeroomStep st gc demo1 (studentIdColOf mapping.fieldMap)
        (staffIdColOf mapping.fieldMap)).1).blendedTeacherMap bid = some roster := by
    intro demo1
    rw [enrollHomeroomStep_blendedTeacherMap]
    exact hb
  rw [enrollmentsTransform]
  dsimp only
  split
  · rename_i hsched
    rw [hsched] at hnh
    exact absurd rfl hnh
  · exact countP_enroll_finalize _ _ _ _
      (List.mem_append_right _
        (blendedTeacherRow_mem_subjectEnrollPart _ mapping.fieldMap _ _ _ bid t
          roster hnh (hb1 _) ht))
      rfl (by simp [blendedTeacherRow]) (by simp [blendedTeacherRow])
      (by simp [blendedTeacherRow])

/-- Witness state for C3: a teacher-roster map with one blended class. -/
def c3St : TState := ⟨2025, "", "", [], [], [], [("B1", ["T1"])]⟩

/-- Witness schedule for C3 (one non-homeroom row). -/
def c3Sched : Table := [[("grade", some "9"), ("student number", some "P1")]]

/-- Witness Enrollments mapping for C3. -/
def c3EM : EntityMapping := ⟨[("student_schedule", "sched.csv")], []⟩

/-- Witness raw tables for C3. -/
def c3Raw : List (String × Table) := [("sched.csv", c3Sched)]

theorem C3_blended_teacher_once_witness :
    ((enrollmentsTransform c3St c3EM c3Raw ⟨["02"], []⟩).2).countP
      (fun r => decide (enrollKey r = ((some "B1" : Cell), (some "T1" : Cell),
        (some "teacher" : Cell)))) = 1 :=
  C3_blended_teacher_once c3St c3EM c3Raw ⟨["02"], []⟩ "B1" "T1" ["T1"]
    (by decide) (by decide) (by decide)

/-! ## C1 — referential integrity of the Enrollments `Class ID` column -/

/-- The `Class ID` value of an output row. -/
def classIdKey (r : Row) : Cell :=
  (getCell r "Class ID").getD none

theorem map_eq_self_forall {α : Type _} {f : α → α} :
    ∀ {l : List α}, l.map f = l → ∀ x ∈ l, f x = x := by
  intro l
  induction l with
  | nil => intro _ x hx; cases hx
  | cons a rest ih =>
    intro h x hx
    rw [List.map_cons, List.cons.injEq] at h
    rcases List.mem_cons.mp hx with hxa | hxr
    · rw [hxa]
      exact h.1
    · exact ih h.2 x hxr

theorem tableHasCol_ne_nil {t : Table} {c : String}
    (h : tableHasCol t c = true) : t ≠ [] := by
  intro he
  rw [he] at h
  exact Bool.noConfusion h

/-- With no demographic frame the homeroom step of the Enrollments pass is
skipped entirely. -/
theorem enrollHomeroomStep_nil_demo (st : TState) (gc : GlobalConfig)
    (studentIdCol staffIdCol : String) :
    enrollHomeroomStep st gc [] studentIdCol staffIdCol = (st, []) := by
  rw [enrollHomeroomStep]
  simp

/-- The first entry of a subject output row is its `Class ID`. -/
theorem getCell_mkSubjectOutputRow_classId (st : TState)
    (fieldMap : List (String × Directive)) (mergedCols : List String) (r : Row) :
    getCell (mkSubjectOutputRow st fieldMap mergedCols r) "Class ID" =
      some ((getCell r "Class ID").getD none) := rfl

/-- On a row whose `master timetable id` cell is already a stripped string
(or absent, with no `"nan"` key in the BlendedIndex), the Enrollments-side
class-id resolution agrees with the Classes-side `subjectClassId`. -/
theorem enroll_cid_eq_subjectClassId (st : TState) (r : Row)
    (hr : applyColRow r "master timetable id"
      (fun v => some (pyStrip (pyStr v))) = r)
    (hnan : alookup st.blendedClassMap "nan" = none) :
    (match lookupCell st.blendedClassMap
        ((getCell r "master timetable id").getD none) with
     | some v => some v
     | none => generateClassId st r "master timetable id") =
      subjectClassId st "master timetable id" r := by
  rw [subjectClassId]
  cases hcell : getCell r "master timetable id" with
  | none =>
    have hkey : pyStrip (pyStr ((none : Option Cell).getD none)) = "nan" := by decide
    rw [hkey, hnan]
    rfl
  | some c =>
    have hc : c = some (pyStrip (pyStr c)) := by
      have h2 := getCell_applyColRow_self r "master timetable id"
        (fun v => some (pyStrip (pyStr v))) c hcell
      rw [hr, hcell] at h2
      exact Option.some.inj h2
    rw [show ((some c).getD (none : Cell)) = c from rfl]
    have hl : lookupCell st.blendedClassMap c =
        alookup st.blendedClassMap (pyStrip (pyStr c)) := by
      conv_lhs => rw [hc]
      rfl
    rw [hl]

/-- Under the canonical run shape (the `Class ID` directive reads the
`master timetable id` column, the column is present and already normalized)
the `Class ID` values of the subject working frame are exactly the
Classes-side subject ids of the non-homeroom rows. -/
theorem enrollNh2_ids (st : TState) (fieldMap : List (String × Directive))
    (N : Table)
    (hmte : colOfFieldMap fieldMap "Class ID" "master timetable id" =
      "master timetable id")
    (hmtN : tableHasCol N "master timetable id" = true)
    (hEm : stripStrCol N "master timetable id" = N)
    (hnan : alookup st.blendedClassMap "nan" = none) :
    (enrollNh2 st fieldMap N).map classIdKey =
      N.map (subjectClassId st "master timetable id") := by
  have hpt : ∀ r ∈ N, applyColRow r "master timetable id"
      (fun v => some (pyStrip (pyStr v))) = r := by
    have hEm2 := hEm
    rw [stripStrCol, if_pos hmtN] at hEm2
    exact map_eq_self_forall hEm2
  rw [enrollNh2]
  dsimp only
  rw [hmte, hmtN]
  rw [if_pos rfl, hEm, List.map_map]
  refine List.map_congr_left ?_
  intro r hrN
  show classIdKey (setCell r "Class ID" _) = _
  rw [classIdKey, getCell_setCell_self]
  rw [Option.getD_some]
  exact enroll_cid_eq_subjectClassId st r (hpt r hrN) hnan

/-- Every row the subject part emits carries a `Class ID` entry, and its
value is the id of a working-frame row or a key of the teacher-roster
map. -/
theorem subjectEnrollPart_classIds (st : TState)
    (fieldMap : List (String × Directive)) (nonHomeroom : Table)
    (studentIdCol staffIdCol : String) :
    ∀ r ∈ subjectEnrollPart st fieldMap nonHomeroom studentIdCol staffIdCol,
      "Class ID" ∈ r.map Prod.fst ∧
      (classIdKey r ∈ (enrollNh2 st fieldMap nonHomeroom).map classIdKey ∨
       ∃ bid ∈ akeys st.blendedTeacherMap, classIdKey r = some bid) := by
  rw [subjectEnrollPart]
  dsimp only
  split
  · intro r hr
    cases hr
  · intro r hr
    rcases List.mem_append.mp hr with hr1 | hr3
    · rcases List.mem_append.mp hr1 with hrs | hrb
      · -- student rows
        split at hrs
        · rcases List.mem_map.mp hrs with ⟨ρ, hρ, hre⟩
          subst hre
          refine ⟨by simp, Or.inl ?_⟩
          exact List.mem_map.mpr ⟨ρ, hρ, rfl⟩
        · cases hrs
      · -- blended roster rows
        have hrb2 := mem_of_mem_dedupBy hrb
        rcases List.mem_flatMap.mp hrb2 with ⟨p, hp, hrp⟩
        rcases List.mem_map.mp hrp with ⟨t, _, hre⟩
        subst hre
        refine ⟨by simp, Or.inr ⟨p.1, List.mem_map.mpr ⟨p, hp, rfl⟩, rfl⟩⟩
    · -- per-row teacher rows of the non-blended classes
      split at hr3
      · rcases List.mem_filter.mp hr3 with ⟨hr4, _⟩
        rcases List.mem_map.mp hr4 with ⟨ρ, hρn, hre⟩
        subst hre
        refine ⟨by simp, Or.inl ?_⟩
        exact List.mem_map.mpr ⟨ρ, List.mem_of_mem_filter hρn, rfl⟩
      · cases hr3

/-- A row of a concatenated frame keeps its `Class ID` value through the
`pd.concat` column alignment. -/
theorem classIdKey_mem_concatTables (ts : List Table) (t : Table) (ht : t ∈ ts)
    (r : Row) (hr : r ∈ t) (hcid : "Class ID" ∈ colsOf t) :
    classIdKey r ∈ (concatTables ts).map classIdKey := by
  rw [concatTables]
  have hmemcols : "Class ID" ∈ dedupBy id (ts.flatMap colsOf) :=
    mem_dedupBy_id _ _ (List.mem_flatMap.mpr ⟨t, ht, hcid⟩)
  refine List.mem_map.mpr
    ⟨_, List.mem_flatMap.mpr ⟨t, ht, List.mem_map.mpr ⟨r, hr, rfl⟩⟩, ?_⟩
  show classIdKey _ = classIdKey r
  rw [classIdKey, classIdKey,
    getCell_map_over_cols _ _ _ hmemcols, Option.getD_some]

/-- In the run shape with no course/staff enrichment and the `Class ID`
directive reading a present `master timetable id` column, the subject
sub-pass emits a frame carrying the subject id of every non-homeroom row in
its `Class ID` column. -/
theorem subjectPass_output_ids (st2 : TState) (cm : EntityMapping)
    (rawData : List (String × Table)) (gc : GlobalConfig) (N : Table)
    (hcourse : getSourceFile rawData cm.sourceFiles "course_info" = [])
    (hstaffi : getSourceFile rawData cm.sourceFiles "staff_info" = [])
    (hmtc : colOfFieldMap cm.fieldMap "Class ID" "master timetable id" =
      "master timetable id")
    (hmtN : tableHasCol N "master timetable id" = true) :
    ∀ v ∈ N.map (subjectClassId st2 "master timetable id"),
      ∃ frame ∈ subjectPass st2 cm rawData gc N,
        ("Class ID" ∈ colsOf frame ∧ ∃ r0 ∈ frame, classIdKey r0 = v) := by
  intro v hv
  have hNne : N ≠ [] := tableHasCol_ne_nil hmtN
  rw [subjectPass]
  rw [if_neg hNne]
  rw [hcourse, hstaffi]
  dsimp only
  rw [if_neg (fun h : ([] : Table) ≠ [] => h rfl),
    if_neg (fun h : ([] : Table) ≠ [] => h rfl)]
  rw [hmtc]
  rw [hmtN, if_pos rfl]
  refine ⟨_, List.mem_singleton.mpr rfl, ?_, ?_⟩
  · obtain ⟨n0, nrest, hN⟩ := List.exists_cons_of_ne_nil hNne
    rw [hN, List.map_cons, List.map_cons]
    refine (mem_names_iff_getCell_isSome _ _).mpr ?_
    rw [getCell_mkSubjectOutputRow_classId]
    rfl
  · rcases List.mem_map.mp hv with ⟨ρ0, hρ0, hval⟩
    refine ⟨_, List.mem_map.mpr
      ⟨_, List.mem_map.mpr ⟨ρ0, hρ0, rfl⟩, rfl⟩, ?_⟩
    rw [classIdKey, getCell_mkSubjectOutputRow_classId, Option.getD_some,
      getCell_setCell_self, Option.getD_some, hval]


theorem classIdKey_renameRow (r : Row) :
    classIdKey (r.map (fun p =>
      if p.1 == "school number" then ("School ID", p.2) else p)) = classIdKey r := by
  rw [classIdKey, classIdKey, getCell_renameRow_ne r _ _ _ (by decide) (by decide)]

/-- Every `Class ID` value of the finalized Enrollments table is the
`Class ID` value of one of the emitted rows. -/
theorem classIdKey_enroll_finalize (rows : List Row) (st1 : TState)
    (hnames : ∀ r ∈ rows, "Class ID" ∈ r.map Prod.fst) :
    ∀ v ∈ ((if rows ≠ [] then
        (st1,
          if tableHasCol (dedupBy enrollKey (alignRows rows)) "school number" then
            renameCol (dedupBy enrollKey (alignRows rows)) "school number" "School ID"
          else dedupBy enrollKey (alignRows rows))
      else (st1, [])).2).map classIdKey,
      ∃ r0 ∈ rows, classIdKey r0 = v := by
  have hstep : ∀ ρ ∈ dedupBy enrollKey (alignRows rows),
      ∃ r0 ∈ rows, classIdKey r0 = classIdKey ρ := by
    intro ρ hρ
    have hρ2 := mem_of_mem_dedupBy hρ
    rw [alignRows] at hρ2
    rcases List.mem_map.mp hρ2 with ⟨r0, hr0, hre⟩
    refine ⟨r0, hr0, ?_⟩
    rw [← hre]
    have hcid : "Class ID" ∈ dedupBy id (rows.flatMap (List.map Prod.fst)) :=
      mem_dedupBy_id _ _ (List.mem_flatMap.mpr ⟨r0, hr0, hnames r0 hr0⟩)
    rw [classIdKey, classIdKey, getCell_map_over_cols _ _ _ hcid, Option.getD_some]
  intro v hv
  split at hv
  · dsimp only at hv
    split at hv
    · rw [renameCol] at hv
      rcases List.mem_map.mp hv with ⟨row1, hrow1, hval⟩
      rcases List.mem_map.mp hrow1 with ⟨ρ, hρ, hρe⟩
      subst hρe
      rw [classIdKey_renameRow] at hval
      rcases hstep ρ hρ with ⟨r0, hr0, h0⟩
      exact ⟨r0, hr0, h0.trans hval⟩
    · rcases List.mem_map.mp hv with ⟨ρ, hρ, hval⟩
      rcases hstep ρ hρ with ⟨r0, hr0, h0⟩
      exact ⟨r0, hr0, h0.trans hval⟩
  · cases hv

/-- The Classes output contains the subject id of every non-homeroom
schedule row, in the run shape with no course/staff enrichment and the
`Class ID` directive reading a present, already-normalized
`master timetable id` column. -/
theorem classesTransform_contains_subject_ids (st0 : TState)
    (cm : EntityMapping) (rawData : List (String × Table)) (gc : GlobalConfig)
    (hcourse : getSourceFile rawData cm.sourceFiles "course_info" = [])
    (hstaffi : getSourceFile rawData cm.sourceFiles "staff_info" = [])
    (hmtc : colOfFieldMap cm.fieldMap "Class ID" "master timetable id" =
      "master timetable id")
    (hA : stripStrCol
        (lowerCols (getSourceFile rawData cm.sourceFiles "student_schedule"))
        (teacherIdColOfGC gc) =
      lowerCols (getSourceFile rawData cm.sourceFiles "student_schedule"))
    (hM : stripStrCol
        (lowerCols (getSourceFile rawData cm.sourceFiles "student_schedule"))
        "master timetable id" =
      lowerCols (getSourceFile rawData cm.sourceFiles "student_schedule"))
    (hSne : getSourceFile rawData cm.sourceFiles "student_schedule" ≠ [])
    (hmtN : tableHasCol (nonHomeroomOf gc
        ((lowerCols (getSourceFile rawData cm.sourceFiles "student_schedule")).map
          (fun r => setCell r "grade_ceds"
            (some (gradeToCeds ((getCell r "grade").getD none))))))
        "master timetable id" = true) :
    ∀ v ∈ (nonHomeroomOf gc
        ((lowerCols (getSourceFile rawData cm.sourceFiles "student_schedule")).map
          (fun r => setCell r "grade_ceds"
            (some (gradeToCeds ((getCell r "grade").getD none)))))).map
        (subjectClassId (classesTransform st0 cm rawData gc).1
          "master timetable id"),
      v ∈ ((classesTransform st0 cm rawData gc).2).map classIdKey := by
  have hprep : classesSchedulePrep
      (getSourceFile rawData cm.sourceFiles "student_schedule") gc =
      (lowerCols (getSourceFile rawData cm.sourceFiles "student_schedule")).map
        (fun r => setCell r "grade_ceds"
          (some (gradeToCeds ((getCell r "grade").getD none)))) := by
    rw [classesSchedulePrep]
    rw [hA, hM]
  intro v hv
  rw [classesTransform_fst st0 cm rawData gc] at hv
  rw [classesTransform]
  dsimp only
  rw [if_pos hSne, hprep]
  generalize (if getSourceFile rawData cm.sourceFiles "class_info" ≠ [] then
      detectBlendedClasses st0
        (stripStrCol (stripStrCol (lowerCols
          (getSourceFile rawData cm.sourceFiles "class_info"))
          (teacherIdColOfGC gc)) "master timetable id") cm rawData gc
    else st0) = stMid at hv ⊢
  obtain ⟨frame, hframe, hcols, r0, hr0, hkey⟩ :=
    subjectPass_output_ids _ cm rawData gc _ hcourse hstaffi hmtc hmtN v hv
  split
  · refine (mem_map_key_dedupBy classIdKey _ v).mpr ?_
    rw [← hkey]
    exact classIdKey_mem_concatTables _ frame
      (List.mem_append_right _ hframe) r0 hr0 hcols
  · rename_i h
    rw [Ne, not_not] at h
    rcases List.append_eq_nil.mp h with ⟨_, h2⟩
    rw [h2] at hframe
    cases hframe

/-- C1 (amended): referential integrity of the Enrollments `Class ID`
column holds in the canonical run shape — Classes computed first on the
same schedule table, no demographic source for Enrollments, no course/staff
enrichment, both `Class ID` directives reading a present and
already-normalized `master timetable id` column, no `"nan"` key in the
BlendedIndex — provided every blended class id of the teacher-roster map
resolves from at least one non-homeroom schedule row.  The counterexample
shows the claim fails without that proviso: a blended class whose member
rows are all homeroom-grade is emitted into Enrollments but never into
Classes. -/
theorem C1_enrollment_ids_in_classes (st0 : TState) (cm em : EntityMapping)
    (rawData : List (String × Table)) (gc : GlobalConfig)
    (hsched : getSourceFile rawData em.sourceFiles "student_schedule" =
      getSourceFile rawData cm.sourceFiles "student_schedule")
    (hdemoE : getSourceFile rawData em.sourceFiles "student_demographic" = [])
    (hcourse : getSourceFile rawData cm.sourceFiles "course_info" = [])
    (hstaffi : getSourceFile rawData cm.sourceFiles "staff_info" = [])
    (hmtc : colOfFieldMap cm.fieldMap "Class ID" "master timetable id" =
      "master timetable id")
    (hmte : colOfFieldMap em.fieldMap "Class ID" "master timetable id" =
      "master timetable id")
    (hA : stripStrCol
        (lowerCols (getSourceFile rawData cm.sourceFiles "student_schedule"))
        (teacherIdColOfGC gc) =
      lowerCols (getSourceFile rawData cm.sourceFiles "student_schedule"))
    (hA2 : stripStrCol
        (lowerCols (getSourceFile rawData cm.sourceFiles "student_schedule"))
        (staffIdColOf em.fieldMap) =
      lowerCols (getSourceFile rawData cm.sourceFiles "student_schedule"))
    (hM : stripStrCol
        (lowerCols (getSourceFile rawData cm.sourceFiles "student_schedule"))
        "master timetable id" =
      lowerCols (getSourceFile rawData cm.sourceFiles "student_schedule"))
    (hmtN : tableHasCol (nonHomeroomOf gc
        ((lowerCols (getSourceFile rawData cm.sourceFiles "student_schedule")).map
          (fun r => setCell r "grade_ceds"
            (some (gradeToCeds ((getCell r "grade").getD none))))))
        "master timetable id" = true)
    (hEm : stripStrCol (nonHomeroomOf gc
        ((lowerCols (getSourceFile rawData cm.sourceFiles "student_schedule")).map
          (fun r => setCell r "grade_ceds"
            (some (gradeToCeds ((getCell r "grade").getD none))))))
        "master timetable id" =
      nonHomeroomOf gc
        ((lowerCols (getSourceFile rawData cm.sourceFiles "student_schedule")).map
          (fun r => setCell r "grade_ceds"
            (some (gradeToCeds ((getCell r "grade").getD none))))))
    (hnan : alookup
        ((classesTransform st0 cm rawData gc).1).blendedClassMap "nan" = none)
    (hblend : ∀ bid ∈ akeys
        ((classesTransform st0 cm rawData gc).1).blendedTeacherMap,
        ∃ r ∈ nonHomeroomOf gc
          ((lowerCols (getSourceFile rawData cm.sourceFiles "student_schedule")).map
            (fun r => setCell r "grade_ceds"
              (some (gradeToCeds ((getCell r "grade").getD none))))),
          subjectClassId (classesTransform st0 cm rawData gc).1
            "master timetable id" r = some bid) :
    ∀ v ∈ ((enrollmentsTransform (classesTransform st0 cm rawData gc).1
        em rawData gc).2).map classIdKey,
      v ∈ ((classesTransform st0 cm rawData gc).2).map classIdKey := by
  have hSne : getSourceFile rawData cm.sourceFiles "student_schedule" ≠ [] := by
    intro h
    apply tableHasCol_ne_nil hmtN
    rw [h]
    rfl
  have hprepE : enrollSchedulePrep
      (getSourceFile rawData cm.sourceFiles "student_schedule")
      (staffIdColOf em.fieldMap) =
      (lowerCols (getSourceFile rawData cm.sourceFiles "student_schedule")).map
        (fun r => setCell r "grade_ceds"
          (some (gradeToCeds ((getCell r "grade").getD none)))) := by
    rw [enrollSchedulePrep, hA2]
  intro v hv
  rw [enrollmentsTransform] at hv
  rw [hsched] at hv
  rw [if_neg hSne] at hv
  rw [hdemoE] at hv
  dsimp only at hv
  rw [if_neg (fun h : ([] : Table) ≠ [] => h rfl)] at hv
  rw [enrollHomeroomStep_nil_demo] at hv
  rw [hprepE] at hv
  dsimp only at hv
  obtain ⟨r0, hr0, hkey⟩ := classIdKey_enroll_finalize _ _
    (fun r hr => by
      rcases List.mem_append.mp hr with h | h
      · cases h
      · exact (subjectEnrollPart_classIds _ _ _ _ _ r h).1) v hv
  rcases List.mem_append.mp hr0 with h | h
  · cases h
  · rcases (subjectEnrollPart_classIds _ _ _ _ _ r0 h).2 with hleft | ⟨bid, hbid, hbeq⟩
    · rw [enrollNh2_ids _ em.fieldMap _ hmte hmtN hEm hnan] at hleft
      rw [← hkey]
      exact classesTransform_contains_subject_ids st0 cm rawData gc hcourse
        hstaffi hmtc hA hM hSne hmtN _ hleft
    · rcases hblend bid hbid with ⟨r1, hr1, hsub⟩
      rw [← hkey, hbeq, ← hsub]
      exact classesTransform_contains_subject_ids st0 cm rawData gc hcourse
        hstaffi hmtc hA hM hSne hmtN _ (List.mem_map.mpr ⟨r1, hr1, rfl⟩)

/-- Global configuration of the C1 counterexample: grades 07 and 08 are
homeroom grades. -/
def c1GC : GlobalConfig := ⟨["07", "08"], []⟩

/-- Schedule of the C1 counterexample: sessions M1 (grade 7) and M2
(grade 8) are homeroom-grade, M3 (grade 9) is not. -/
def c1Sched : Table :=
  [[("master timetable id", some "M1"), ("grade", some "7"),
    ("school number", some "S1"), ("course code", some "C1"),
    ("teacher id", some "T1"), ("student number", some "P1")],
   [("master timetable id", some "M2"), ("grade", some "8"),
    ("school number", some "S1"), ("course code", some "C1"),
    ("teacher id", some "T1"), ("student number", some "P2")],
   [("master timetable id", some "M3"), ("grade", some "9"),
    ("school number", some "S1"), ("course code", some "C1"),
    ("teacher id", some "T1"), ("student number", some "P3")]]

/-- Class-info of the C1 counterexample: M1 and M2 share one session slot,
so they form a blended group spanning grades 07 and 08.  The `course code`
column is provided because `_create_blended_class_name` reads it unguardedly
on every validated group (transformer.py line 190). -/
def c1ClassInfo : Table :=
  [[("school number", some "S1"), ("teacher id", some "T1"),
    ("master timetable id", some "M1"), ("course code", some "C1"),
    ("term", some "1"), ("semester", some "1"), ("day", some "Mon"),
    ("period", some "1")],
   [("school number", some "S1"), ("teacher id", some "T1"),
    ("master timetable id", some "M2"), ("course code", some "C1"),
    ("term", some "1"), ("semester", some "1"), ("day", some "Mon"),
    ("period", some "1")]]

/-- Course-info of the C1 counterexample. -/
def c1Course : Table :=
  [[("school number", some "S1"), ("course code", some "C1"),
    ("title", some "Mathematics")]]

/-- Raw tables of the C1 counterexample. -/
def c1Raw : List (String × Table) :=
  [("sched.csv", c1Sched), ("class.csv", c1ClassInfo), ("course.csv", c1Course)]

/-- Classes mapping of the C1 counterexample. -/
def c1CM : EntityMapping :=
  ⟨[("student_schedule", "sched.csv"), ("class_info", "class.csv"),
    ("course_info", "course.csv")],
   [("Class ID", .dict [])]⟩

/-- Enrollments mapping of the C1 counterexample. -/
def c1EM : EntityMapping := ⟨[("student_schedule", "sched.csv")], []⟩

/-- Counterexample to C1 as stated: the blended class of the M1/M2 session
group is written to the BlendedIndex, but both of its schedule rows carry
homeroom grades, so the Classes subject pass (which works on non-homeroom
rows only) never emits its synthetic id — while the Enrollments pass emits
one teacher row per roster member for every BlendedIndex entry.  The
Enrollments output therefore references a `Class ID` absent from the
Classes output of the same run. -/
theorem C1_counterexample_blended_orphan :
    (some "BLENDED_S1_T1_1_1_Mon_1_2025") ∈
      ((enrollmentsTransform (classesTransform (setSchoolYear initState 2025)
          c1CM c1Raw c1GC).1 c1EM c1Raw c1GC).2).map classIdKey ∧
    (some "BLENDED_S1_T1_1_1_Mon_1_2025") ∉
      (((classesTransform (setSchoolYear initState 2025)
          c1CM c1Raw c1GC).2).map classIdKey) := by
  constructor
  · decide
  · decide

/-- Witness run for the amended C1. -/
def c1wSt0 : TState := ⟨2025, "", "", [], [("M1", "B1")], [], [("B1", ["T1"])]⟩

/-- Witness schedule for the amended C1. -/
def c1wSched : Table :=
  [[("master timetable id", some "M1"), ("grade", some "9"),
    ("school number", some "S1"), ("teacher id", some "T1"),
    ("student number", some "P1")]]

/-- Witness raw tables for the amended C1. -/
def c1wRaw : List (String × Table) := [("s.csv", c1wSched)]

/-- Witness Classes mapping for the amended C1. -/
def c1wCM : EntityMapping :=
  ⟨[("student_schedule", "s.csv")], [("Class ID", .dict [])]⟩

/-- Witness Enrollments mapping for the amended C1. -/
def c1wEM : EntityMapping := ⟨[("student_schedule", "s.csv")], []⟩

theorem C1_enrollment_ids_in_classes_witness :
    (some "B1") ∈ ((classesTransform c1wSt0 c1wCM c1wRaw ⟨["02"], []⟩).2).map
      classIdKey :=
  C1_enrollment_ids_in_classes c1wSt0 c1wCM c1wEM c1wRaw ⟨["02"], []⟩
    (by decide) (by decide) (by decide) (by decide) (by decide) (by decide)
    (by decide) (by decide) (by decide) (by decide) (by decide) (by decide)
    (by decide) (some "B1") (by decide)

end GDE2Acsv
